import Mathlib

/-!
# Verification of the AI-Directed Operation Protocol and Execution Engine

A shallow embedding of `src/services/aiFullControl.ts` (class
`AIFullControlService`): the directive extractor (`parseOperations`), the
execution orchestrator (`executeOperations` and the per-domain operations it
drives), the named-process registry (`startProcess` / `stopProcess`), the
command history, and the response sanitizer (`cleanResponse`).

Modelling conventions:
* JavaScript strings are `List Char` internally; `String` at the interfaces.
* The service's regular-expression scans are embedded as deterministic
  scanning functions equivalent to the concrete patterns used by the source
  (all of which are backtracking-free after maximal-munch analysis; each
  pattern's embedding is documented at its definition).
* External collaborators (`terminalService`, `gitService`, `quickDeploy`,
  the `extensionEvents` file bus, `localStorage`) are an `Env` of oracles;
  calls that the source wraps in `try`/`catch` return `Except String`.
  `terminalService.closeSession` and `terminalService.write` are modelled as
  non-throwing.  Every collaborator invocation is recorded in an event trace.
* Elapsed wall-clock time (`Date.now() - startTime`) is abstracted by a
  single environment-supplied value `Env.elapsed`; no claim depends on it.
* Progress callbacks (`this.callbacks.*`) and informational
  `extensionEvents.emit` notifications are not modelled: they carry no
  decision-relevant state.  The `file:*`/`folder:*` emissions *are* modelled,
  since they are the file-store collaborator calls themselves.
-/

/-! ## JavaScript string primitives -/

/-- JS `\s` (and `String.prototype.trim`'s) whitespace class:
ASCII whitespace, NBSP, BOM, and the Unicode space separators. -/
def isJsSpace (c : Char) : Bool :=
  c == ' ' || c == '\t' || c == '\n' || c.toNat == 0x0B || c.toNat == 0x0C ||
  c == '\r' || c.toNat == 0x00A0 || c.toNat == 0x1680 ||
  (0x2000 ≤ c.toNat && c.toNat ≤ 0x200A) ||
  c.toNat == 0x2028 || c.toNat == 0x2029 || c.toNat == 0x202F ||
  c.toNat == 0x205F || c.toNat == 0x3000 || c.toNat == 0xFEFF

/-- JS `String.prototype.trim` on char lists. -/
def jsTrimData (s : List Char) : List Char :=
  ((s.dropWhile isJsSpace).reverse.dropWhile isJsSpace).reverse

/-- JS `String.prototype.trim`. -/
def jsTrim (s : String) : String := String.mk (jsTrimData s.data)

/-- JS truthiness of a `string | undefined | null` value:
`undefined`/`null` and the empty string are falsy. -/
def jsTruthyS : Option String → Bool
  | some s => s ≠ ""
  | none => false

/-- JS `a || b` on `string | undefined` values. -/
def jsOrS (a b : Option String) : Option String := if jsTruthyS a then a else b

/-- JS `a || d` where `d` is a (truthy) string default, as in
`command || 'npm run build'`. -/
def jsOrStr (a : Option String) (d : String) : String :=
  match a with
  | some s => if s = "" then d else s
  | none => d

/-- JS `String.prototype.split('\n')`. -/
def splitNl : List Char → List (List Char)
  | [] => [[]]
  | c :: rest =>
    if c = '\n' then [] :: splitNl rest
    else
      match splitNl rest with
      | l :: ls => (c :: l) :: ls
      | [] => [[c]]

/-- JS `parseInt(s)` (radix 10), returning `none` for `NaN`. -/
def jsParseInt (s : String) : Option Int :=
  let t := s.data.dropWhile isJsSpace
  let (neg, t) : Bool × List Char :=
    match t with
    | '-' :: r => (true, r)
    | '+' :: r => (false, r)
    | r => (false, r)
  let digits := t.takeWhile Char.isDigit
  if digits = [] then none
  else
    let n : Nat := digits.foldl (fun acc c => acc * 10 + (c.toNat - 48)) 0
    some (if neg then -(n : Int) else (n : Int))

/-! ## Anchored pattern matchers

Each matcher embeds one of the source's regular expressions, anchored at the
start of the input, returning the captures and the unconsumed suffix.  The
concrete patterns are deterministic: every quantified class in them excludes
the character that must follow it, so greedy/lazy matching collapses to
maximal/minimal munch (noted per combinator). -/

/-- Match a literal prefix, returning the rest. -/
def stripLit : List Char → List Char → Option (List Char)
  | [], s => some s
  | _ :: _, [] => none
  | c :: cs, d :: ds => if c = d then stripLit cs ds else none

/-- `\s+` followed by a non-space literal: maximal munch of at least one
whitespace character (shrinking the greedy `\s+` can never help, since what
follows in every source pattern starts with a non-space character). -/
def ws1 : List Char → Option (List Char)
  | [] => none
  | c :: cs => if isJsSpace c then some (cs.dropWhile isJsSpace) else none

/-- `\s+key="([^"]+)"`: the attribute form shared by every tag pattern in the
source.  `[^"]+` is greedy but `"` is excluded from the class, so the capture
is exactly the (nonempty) run up to the next `"`. -/
def matchAttr (key : String) (s : List Char) : Option (List Char × List Char) :=
  match ws1 s with
  | none => none
  | some s1 =>
    match stripLit (key.data ++ ['=', '"']) s1 with
    | none => none
    | some s2 =>
      if s2.takeWhile (· != '"') = [] then none
      else
        match s2.dropWhile (· != '"') with
        | '"' :: rest => some (s2.takeWhile (· != '"'), rest)
        | _ => none

/-- `([\s\S]*?)` followed by a literal close tag: lazy matching captures up to
the *first* occurrence of the close literal. -/
def lazyBody (close : List Char) : List Char → Option (List Char × List Char)
  | [] => match stripLit close [] with
          | some rest => some ([], rest)
          | none => none
  | s@(c :: cs) =>
    match stripLit close s with
    | some rest => some ([], rest)
    | none =>
      match lazyBody close cs with
      | some (cap, rest) => some (c :: cap, rest)
      | none => none

/-- `[^<]*` followed by a close literal beginning with `<`: the class run ends
at the first `<`, where the literal must match (no shorter run can expose a
`<` earlier). -/
def bodyNoLt (close : List Char) (s : List Char) : Option (List Char × List Char) :=
  match stripLit close (s.dropWhile (· != '<')) with
  | some rest => some (s.takeWhile (· != '<'), rest)
  | none => none

/-- `\s*\/>`: maximal whitespace munch then the literal `/>` (the literal
starts with the non-space `/`, so no backtracking into `\s*` can help). -/
def wsSelfClose (s : List Char) : Option (List Char) :=
  stripLit ['/', '>'] (s.dropWhile isJsSpace)

/-- `[^>]*\/>`: the class run ends at the first `>`; the match succeeds
exactly when the character before that `>` is `/` (backtracking analysis:
`>` cannot occur inside the class run, so the only viable split puts `\/`
immediately before the first `>`). -/
def untilSelfClose (s : List Char) : Option (List Char) :=
  match s.dropWhile (· != '>') with
  | '>' :: rest =>
    let region := s.takeWhile (· != '>')
    if region ≠ [] ∧ region.getLast? = some '/' then some rest else none
  | _ => none

/-- `wsSelfClose` with a unit capture, for use as an optional-group
continuation. -/
def wsSelfCloseU (s : List Char) : Option (Unit × List Char) :=
  match wsSelfClose s with
  | some r => some ((), r)
  | none => none

/-- `(?:\s+key="([^"]+)")?` followed by a continuation: try the optional
group first (regex alternation order); on failure of the group or of the
continuation after it, retry the continuation without the group. -/
def optAttrThen (key : String) (cont : List Char → Option (α × List Char))
    (s : List Char) : Option ((Option (List Char) × α) × List Char) :=
  match matchAttr key s with
  | some (cap, s1) =>
    match cont s1 with
    | some (b, r) => some ((some cap, b), r)
    | none =>
      match cont s with
      | some (b, r) => some ((none, b), r)
      | none => none
  | none =>
    match cont s with
    | some (b, r) => some ((none, b), r)
    | none => none

/-! ### The extractor's per-tag matchers (`parseOperations` regexes) -/

/-- `/<terminal_run>([\s\S]*?)<\/terminal_run>/g` (one anchored attempt). -/
def mTerminalRun (s : List Char) : Option (List Char × List Char) :=
  match stripLit "<terminal_run>".data s with
  | some s1 => lazyBody "</terminal_run>".data s1
  | none => none

/-- `/<terminal_sequence>([\s\S]*?)<\/terminal_sequence>/g`. -/
def mTerminalSeq (s : List Char) : Option (List Char × List Char) :=
  match stripLit "<terminal_sequence>".data s with
  | some s1 => lazyBody "</terminal_sequence>".data s1
  | none => none

/-- `/<terminal_start\s+name="([^"]+)">([\s\S]*?)<\/terminal_start>/g`. -/
def mTerminalStart (s : List Char) : Option ((List Char × List Char) × List Char) :=
  match stripLit "<terminal_start".data s with
  | none => none
  | some s1 =>
    match matchAttr "name" s1 with
    | none => none
    | some (name, s2) =>
      match stripLit [ '>' ] s2 with
      | none => none
      | some s3 =>
        match lazyBody "</terminal_start>".data s3 with
        | some (body, rest) => some ((name, body), rest)
        | none => none

/-- `/<terminal_stop\s+name="([^"]+)"\s*\/>/g`. -/
def mTerminalStop (s : List Char) : Option (List Char × List Char) :=
  match stripLit "<terminal_stop".data s with
  | none => none
  | some s1 =>
    match matchAttr "name" s1 with
    | none => none
    | some (name, s2) =>
      match wsSelfClose s2 with
      | some rest => some (name, rest)
      | none => none

/-- Shared shape of `file_create`/`file_edit`: `<TAG\s+path="([^"]+)">BODY</TAG>`. -/
def mPathBlock (openTag closeTag : String) (s : List Char) :
    Option ((List Char × List Char) × List Char) :=
  match stripLit openTag.data s with
  | none => none
  | some s1 =>
    match matchAttr "path" s1 with
    | none => none
    | some (path, s2) =>
      match stripLit [ '>' ] s2 with
      | none => none
      | some s3 =>
        match lazyBody closeTag.data s3 with
        | some (body, rest) => some ((path, body), rest)
        | none => none

/-- Shared shape of `file_delete`/`folder_create`/`folder_delete`/`git_add`
etc.: `<TAG\s+key="([^"]+)"\s*\/>`. -/
def mAttrSelf (openTag key : String) (s : List Char) : Option (List Char × List Char) :=
  match stripLit openTag.data s with
  | none => none
  | some s1 =>
    match matchAttr key s1 with
    | none => none
    | some (v, s2) =>
      match wsSelfClose s2 with
      | some rest => some (v, rest)
      | none => none

/-- `/<file_create\s+path="([^"]+)">([\s\S]*?)<\/file_create>/g`. -/
def mFileCreate (s : List Char) : Option ((List Char × List Char) × List Char) :=
  mPathBlock "<file_create" "</file_create>" s

/-- `/<file_edit\s+path="([^"]+)">([\s\S]*?)<\/file_edit>/g`. -/
def mFileEdit (s : List Char) : Option ((List Char × List Char) × List Char) :=
  mPathBlock "<file_edit" "</file_edit>" s

/-- `/<file_delete\s+path="([^"]+)"\s*\/>/g`. -/
def mFileDelete (s : List Char) : Option (List Char × List Char) :=
  mAttrSelf "<file_delete" "path" s

/-- `/<file_rename\s+from="([^"]+)"\s+to="([^"]+)"\s*\/>/g`. -/
def mFileRename (s : List Char) : Option ((List Char × List Char) × List Char) :=
  match stripLit "<file_rename".data s with
  | none => none
  | some s1 =>
    match matchAttr "from" s1 with
    | none => none
    | some (f, s2) =>
      match matchAttr "to" s2 with
      | none => none
      | some (t, s3) =>
        match wsSelfClose s3 with
        | some rest => some ((f, t), rest)
        | none => none

/-- `/<folder_create\s+path="([^"]+)"\s*\/>/g`. -/
def mFolderCreate (s : List Char) : Option (List Char × List Char) :=
  mAttrSelf "<folder_create" "path" s

/-- `/<folder_delete\s+path="([^"]+)"\s*\/>/g`. -/
def mFolderDelete (s : List Char) : Option (List Char × List Char) :=
  mAttrSelf "<folder_delete" "path" s

/-- `/<build(?:\s+command="([^"]+)")?\s*\/>/g`. -/
def mBuild (s : List Char) : Option (Option (List Char) × List Char) :=
  match stripLit "<build".data s with
  | none => none
  | some s1 =>
    match optAttrThen "command" wsSelfCloseU s1 with
    | some ((cap, _), rest) => some (cap, rest)
    | none => none

/-- `/<test(?:\s+pattern="([^"]+)")?\s*\/>/g`. -/
def mTest (s : List Char) : Option (Option (List Char) × List Char) :=
  match stripLit "<test".data s with
  | none => none
  | some s1 =>
    match optAttrThen "pattern" wsSelfCloseU s1 with
    | some ((cap, _), rest) => some (cap, rest)
    | none => none

/-- `/<run(?:\s+command="([^"]+)")?\s*\/>/g`. -/
def mRunTag (s : List Char) : Option (Option (List Char) × List Char) :=
  match stripLit "<run".data s with
  | none => none
  | some s1 =>
    match optAttrThen "command" wsSelfCloseU s1 with
    | some ((cap, _), rest) => some (cap, rest)
    | none => none

/-- `/<dev\s*\/>/g`. -/
def mDev (s : List Char) : Option (Unit × List Char) :=
  match stripLit "<dev".data s with
  | none => none
  | some s1 => wsSelfCloseU s1

/-- `/<deploy\s+platform="([^"]+)"\s+project="([^"]+)"(?:\s*\/>|>([\s\S]*?)<\/deploy>)/g`:
alternation tries the self-closing arm first, then the block arm. -/
def mDeploy (s : List Char) :
    Option ((List Char × List Char × Option (List Char)) × List Char) :=
  match stripLit "<deploy".data s with
  | none => none
  | some s1 =>
    match matchAttr "platform" s1 with
    | none => none
    | some (platform, s2) =>
      match matchAttr "project" s2 with
      | none => none
      | some (project, s3) =>
        match wsSelfClose s3 with
        | some rest => some ((platform, project, none), rest)
        | none =>
          match stripLit [ '>' ] s3 with
          | none => none
          | some s4 =>
            match lazyBody "</deploy>".data s4 with
            | some (body, rest) => some ((platform, project, some body), rest)
            | none => none

/-- `/<env\s+name="([^"]+)"\s+value="([^"]+)"\s*\/>/g` (inside a deploy body). -/
def mEnvTag (s : List Char) : Option ((List Char × List Char) × List Char) :=
  match stripLit "<env".data s with
  | none => none
  | some s1 =>
    match matchAttr "name" s1 with
    | none => none
    | some (n, s2) =>
      match matchAttr "value" s2 with
      | none => none
      | some (v, s3) =>
        match wsSelfClose s3 with
        | some rest => some ((n, v), rest)
        | none => none

/-- `/<git_init\s*\/>/g` and `/<git_status\s*\/>/g` share this shape. -/
def mBareSelf (openTag : String) (s : List Char) : Option (Unit × List Char) :=
  match stripLit openTag.data s with
  | none => none
  | some s1 => wsSelfCloseU s1

/-- `/<git_branch\s+name="([^"]+)"(?:\s+checkout="([^"]+)")?\s*\/>/g`. -/
def mGitBranch (s : List Char) :
    Option ((List Char × Option (List Char)) × List Char) :=
  match stripLit "<git_branch".data s with
  | none => none
  | some s1 =>
    match matchAttr "name" s1 with
    | none => none
    | some (n, s2) =>
      match optAttrThen "checkout" wsSelfCloseU s2 with
      | some ((co, _), rest) => some ((n, co), rest)
      | none => none

/-- `/<git_push(?:\s+remote="([^"]+)")?(?:\s+branch="([^"]+)")?\s*\/>/g`
(and `git_pull`): two optional groups, alternatives tried in regex order. -/
def mGitRemote (openTag : String) (s : List Char) :
    Option ((Option (List Char) × Option (List Char)) × List Char) :=
  match stripLit openTag.data s with
  | none => none
  | some s1 =>
    match optAttrThen "remote" (optAttrThen "branch" wsSelfCloseU) s1 with
    | some ((remote, (branch, _)), rest) => some ((remote, branch), rest)
    | none => none

/-- `/<git_log(?:\s+depth="([^"]+)")?\s*\/>/g`. -/
def mGitLog (s : List Char) : Option (Option (List Char) × List Char) :=
  match stripLit "<git_log".data s with
  | none => none
  | some s1 =>
    match optAttrThen "depth" wsSelfCloseU s1 with
    | some ((cap, _), rest) => some (cap, rest)
    | none => none

/-! ## The global scan (`regex.exec` loop)

`exec` with the `/g` flag repeatedly finds the leftmost match at or after
`lastIndex`, then resumes after the matched span.  None of the source's
patterns can match the empty string (each begins with a literal `<tag`), so
every step consumes at least one character and fuel `length + 1` is exact. -/

/-- One `while ((match = re.exec(text)) !== null)` loop: positions paired with
captures. -/
def scanP (m : List Char → Option (α × List Char)) :
    Nat → List Char → Nat → List (Nat × α)
  | 0, _, _ => []
  | _ + 1, [], _ => []
  | fuel + 1, s@(_ :: cs), pos =>
    match m s with
    | some (a, rest) => (pos, a) :: scanP m fuel rest (pos + (s.length - rest.length))
    | none => scanP m fuel cs (pos + 1)

/-- Scan a whole text with a matcher. -/
def scanM (m : List Char → Option (α × List Char)) (s : List Char) : List (Nat × α) :=
  scanP m (s.length + 1) s 0

/-! ## The extractor (`parseOperations`) -/

/-- An element of `terminalCommands`: the TS record
`{type, command?, name?, commands?}` (absent fields are `undefined`). -/
structure TerminalCmdOp where
  type : String
  command : Option String := none
  name : Option String := none
  commands : Option (List String) := none
deriving DecidableEq, Repr

/-- An element of `fileOperations`: `{type, path?, content?, from?, to?}`.
The TS field names `from`/`to` are Lean keywords; they are rendered
`fromPath`/`toPath`. -/
structure FileOp where
  type : String
  path : Option String := none
  content : Option String := none
  fromPath : Option String := none
  toPath : Option String := none
deriving DecidableEq, Repr

/-- An element of `folderOperations`: `{type, path}`. -/
structure FolderOp where
  type : String
  path : String
deriving DecidableEq, Repr

/-- An element of `buildOperations`: `{type, command?, pattern?}`. -/
structure BuildOp where
  type : String
  command : Option String := none
  pattern : Option String := none
deriving DecidableEq, Repr

/-- An element of `deployOperations`: `{platform, project, envVars}`. -/
structure DeployOp where
  platform : String
  project : String
  envVars : List (String × String) := []
deriving DecidableEq, Repr

/-- The `args` record of a git operation (`Record<string, any>` in TS;
only these keys are ever written/read). -/
structure GitArgs where
  path : Option String := none
  message : Option String := none
  name : Option String := none
  checkout : Option Bool := none
  branch : Option String := none
  remote : Option String := none
  depth : Option Int := none
  file : Option String := none
deriving DecidableEq, Repr

/-- An element of `gitOperations`: `{type, args}`. -/
structure GitOp where
  type : String
  args : GitArgs
deriving DecidableEq, Repr

/-- The return record of `parseOperations`. -/
structure OperationBatch where
  terminalCommands : List TerminalCmdOp
  fileOperations : List FileOp
  folderOperations : List FolderOp
  buildOperations : List BuildOp
  deployOperations : List DeployOp
  gitOperations : List GitOp
deriving DecidableEq, Repr

/-- JS object assignment `envVars[k] = v` over an insertion-ordered record. -/
def upsert (m : List (String × String)) (k v : String) : List (String × String) :=
  if m.any (fun p => p.1 == k) then
    m.map (fun p => if p.1 == k then (k, v) else p)
  else m ++ [(k, v)]

/-- The env-var sub-scan of a deploy body:
`while ((envMatch = envRegex.exec(match[3])) !== null) envVars[k] = v`. -/
def parseEnvVars (body : List Char) : List (String × String) :=
  (scanM mEnvTag body).foldl
    (fun m pm => upsert m (String.mk pm.2.1) (String.mk pm.2.2)) []

/-- `parseOperations(response)`: runs each tag's `exec` loop over the whole
text and pushes the resulting records; each domain list is therefore the
concatenation of the per-tag extraction lists, in the source's push order. -/
def parseOperations (response : String) : OperationBatch :=
  let cs := response.data
  { terminalCommands :=
      (scanM mTerminalRun cs).map
        (fun pm => { type := "run", command := some (jsTrim (String.mk pm.2)) }) ++
      (scanM mTerminalSeq cs).map
        (fun pm =>
          { type := "sequence",
            commands := some (((splitNl (jsTrimData pm.2)).filter
              (fun l => jsTrimData l ≠ [])).map String.mk) }) ++
      (scanM mTerminalStart cs).map
        (fun pm => { type := "start", name := some (String.mk pm.2.1),
                     command := some (jsTrim (String.mk pm.2.2)) }) ++
      (scanM mTerminalStop cs).map
        (fun pm => { type := "stop", name := some (String.mk pm.2) }),
    fileOperations :=
      (scanM mFileCreate cs).map
        (fun pm => { type := "create", path := some (String.mk pm.2.1),
                     content := some (jsTrim (String.mk pm.2.2)) }) ++
      (scanM mFileEdit cs).map
        (fun pm => { type := "edit", path := some (String.mk pm.2.1),
                     content := some (jsTrim (String.mk pm.2.2)) }) ++
      (scanM mFileDelete cs).map
        (fun pm => { type := "delete", path := some (String.mk pm.2) }) ++
      (scanM mFileRename cs).map
        (fun pm => { type := "rename", fromPath := some (String.mk pm.2.1),
                     toPath := some (String.mk pm.2.2) }),
    folderOperations :=
      (scanM mFolderCreate cs).map
        (fun pm => { type := "create", path := String.mk pm.2 }) ++
      (scanM mFolderDelete cs).map
        (fun pm => { type := "delete", path := String.mk pm.2 }),
    buildOperations :=
      (scanM mBuild cs).map
        (fun pm => { type := "build", command := pm.2.map String.mk }) ++
      (scanM mTest cs).map
        (fun pm => { type := "test", pattern := pm.2.map String.mk }) ++
      (scanM mRunTag cs).map
        (fun pm => { type := "run", command := pm.2.map String.mk }) ++
      (scanM mDev cs).map (fun _ => { type := "dev" }),
    deployOperations :=
      (scanM mDeploy cs).map
        (fun pm =>
          { platform := String.mk pm.2.1, project := String.mk pm.2.2.1,
            envVars :=
              match pm.2.2.2 with
              | some body => parseEnvVars body
              | none => [] }),
    gitOperations :=
      (scanM (mBareSelf "<git_init") cs).map
        (fun _ => { type := "init", args := {} }) ++
      (scanM (mBareSelf "<git_status") cs).map
        (fun _ => { type := "status", args := {} }) ++
      (scanM (mAttrSelf "<git_add" "path") cs).map
        (fun pm => { type := "add", args := { path := some (String.mk pm.2) } }) ++
      (scanM (mAttrSelf "<git_commit" "message") cs).map
        (fun pm => { type := "commit", args := { message := some (String.mk pm.2) } }) ++
      (scanM mGitBranch cs).map
        (fun pm =>
          { type := "branch",
            args := { name := some (String.mk pm.2.1),
                      checkout := some (pm.2.2.map String.mk == some "true") } }) ++
      (scanM (mAttrSelf "<git_checkout" "branch") cs).map
        (fun pm => { type := "checkout", args := { branch := some (String.mk pm.2) } }) ++
      (scanM (mGitRemote "<git_push") cs).map
        (fun pm => { type := "push", args := { remote := pm.2.1.map String.mk,
                                               branch := pm.2.2.map String.mk } }) ++
      (scanM (mGitRemote "<git_pull") cs).map
        (fun pm => { type := "pull", args := { remote := pm.2.1.map String.mk,
                                               branch := pm.2.2.map String.mk } }) ++
      (scanM mGitLog cs).map
        (fun pm =>
          { type := "log",
            args := { depth :=
              match pm.2 with
              | some d => jsParseInt (String.mk d)
              | none => none } }) ++
      (scanM (mAttrSelf "<git_diff" "file") cs).map
        (fun pm => { type := "diff", args := { file := some (String.mk pm.2) } }) }

/-! ## Result types, configuration and service state -/

/-- `TerminalCommandResult {success, output, exitCode, duration}`. -/
structure TerminalCommandResult where
  success : Bool
  output : String
  exitCode : Int
  duration : Nat
deriving DecidableEq, Repr

/-- `FileOperationResult {success, path, operation, error?}` (the operation
discriminator is kept as its source string). -/
structure FileOperationResult where
  success : Bool
  path : String
  operation : String
  error : Option String := none
deriving DecidableEq, Repr

/-- `GitOperationResult {success, operation, data?, error?}`; the untyped
backend payload (`data: any`) is abstracted to a string. -/
structure GitOperationResult where
  success : Bool
  operation : String
  data : Option String := none
  error : Option String := none
deriving DecidableEq, Repr

/-- `BuildResult {success, output, errors?, warnings?, duration}`. -/
structure BuildResult where
  success : Bool
  output : String
  errors : Option (List String) := none
  warnings : Option (List String) := none
  duration : Nat
deriving DecidableEq, Repr

/-- `DeployResult {success, url?, deploymentId?, state?, error?}`. -/
structure DeployResult where
  success : Bool
  url : Option String := none
  deploymentId : Option String := none
  state : Option String := none
  error : Option String := none
deriving DecidableEq, Repr

/-- `AIFullControlConfig`. -/
structure AIFullControlConfig where
  terminalEnabled : Bool
  fileOperationsEnabled : Bool
  buildEnabled : Bool
  deployEnabled : Bool
  gitEnabled : Bool
  autoExecuteCommands : Bool
  maxCommandTimeout : Nat
  projectPath : Option String := none
  vercelToken : Option String := none
deriving DecidableEq, Repr

/-- The defaults returned by `loadConfig` when nothing is saved. -/
def defaultConfig : AIFullControlConfig :=
  { terminalEnabled := true, fileOperationsEnabled := true, buildEnabled := true,
    deployEnabled := true, gitEnabled := true, autoExecuteCommands := false,
    maxCommandTimeout := 60000 }

/-- One element of `this.commandHistory`: the source pushes
`{ command, result: terminalResult }` — these two fields and no others. -/
structure CommandHistoryEntry where
  command : String
  result : TerminalCommandResult
deriving DecidableEq, Repr

/-- The field names of the object literal pushed onto `commandHistory`
(`this.commandHistory.push({ command, result: terminalResult })`). -/
def commandHistoryEntryFields : List String := ["command", "result"]

/-- The mutable state of the service instance: its config, the
named-process registry (`activeProcesses: Map<string, string>`, modelled as
an insertion-ordered association list) and the command history. -/
structure ServiceState where
  config : AIFullControlConfig
  activeProcesses : List (String × String) := []
  commandHistory : List CommandHistoryEntry := []
deriving DecidableEq, Repr

/-- A fresh service on first load (`loadConfig` defaults, empty registry and
history). -/
def initialState : ServiceState := { config := defaultConfig }

/-! ## Collaborator environment and observable events -/

/-- A terminal session returned by `terminalService.createSession`. -/
structure Session where
  id : String
deriving DecidableEq, Repr

/-- The options records passed to `terminalService.createSession` (the
`type: 'remote'` field is identical at both call sites and omitted). -/
structure SessionOpts where
  name : Option String := none
  cwd : Option String := none
deriving DecidableEq, Repr

/-- The result of `terminalService.executeCommand`. -/
structure ExecOut where
  output : String
  exitCode : Int
deriving DecidableEq, Repr

/-- The deployment record returned by `quickDeploy`. -/
structure Deployment where
  url : String
  id : String
  state : String
  readyUrl : Option String := none
deriving DecidableEq, Repr

/-- The calls of the `gitService` backend interface. -/
inductive GitCall where
  | init
  | status
  | add (path : String)
  | addAll
  | commit (message : String)
  | checkout (branch : String) (create : Option Bool)
  | push (remote branch : String) (creds : Option (String × String))
  | pull (remote branch : String) (creds : Option (String × String))
  | log (depth : Int)
  | diff (filepath : String)
  | branches
deriving DecidableEq, Repr

/-- The file-store collaborator calls (the `extensionEvents` emissions
`file:write` / `file:delete` / `file:rename` / `folder:create`). -/
inductive FileEvt where
  | write (path content : String)
  | delete (path : String)
  | rename (oldPath newPath : String)
  | mkdir (path : String)
deriving DecidableEq, Repr

/-- One collaborator invocation, in program order. -/
inductive Event where
  | createSession (opts : SessionOpts)
  | execCommand (sessionId command : String)
  | write (sessionId data : String)
  | closeSession (sessionId : String)
  | fileEvt (e : FileEvt)
  | git (c : GitCall)
  | deploy (files : List (String × String)) (project token : String)
deriving DecidableEq, Repr

/-- The collaborator oracles.  A `.error` value models the underlying call
throwing; its string is the thrown `error.message`. -/
structure Env where
  createSession : SessionOpts → Except String Session
  execCommand : String → String → Except String ExecOut
  fileEmit : FileEvt → Except String Unit
  git : GitCall → Except String String
  quickDeploy : List (String × String) → String → String → Except String Deployment
  localVercelToken : Option String
  elapsed : Nat

/-! ## Terminal operations -/

/-- The synthesized result of `executeCommand` when
`!this.config.terminalEnabled`. -/
def disabledTerminalResult : TerminalCommandResult :=
  { success := false, output := "Terminal operations are disabled",
    exitCode := -1, duration := 0 }

/-- `executeCommand(command, cwd?)`: permission gate, ephemeral session,
dispatch, close, history append; any throw is caught into a failure result
(on the throw paths the session is not closed and no history is appended,
exactly as in the source). -/
def executeCommand (env : Env) (command : String) (cwd : Option String)
    (s : ServiceState) : TerminalCommandResult × ServiceState × List Event :=
  if s.config.terminalEnabled = false then
    (disabledTerminalResult, s, [])
  else
    let opts : SessionOpts := { cwd := jsOrS cwd s.config.projectPath }
    match env.createSession opts with
    | .error e =>
      ({ success := false, output := e, exitCode := -1, duration := env.elapsed },
       s, [.createSession opts])
    | .ok session =>
      match env.execCommand session.id command with
      | .error e =>
        ({ success := false, output := e, exitCode := -1, duration := env.elapsed },
         s, [.createSession opts, .execCommand session.id command])
      | .ok result =>
        let terminalResult : TerminalCommandResult :=
          { success := result.exitCode == 0, output := result.output,
            exitCode := result.exitCode, duration := env.elapsed }
        (terminalResult,
         { s with commandHistory :=
             s.commandHistory ++ [{ command := command, result := terminalResult }] },
         [.createSession opts, .execCommand session.id command,
          .closeSession session.id])

/-- `executeCommands(commands)`: strictly sequential; pushes each result and
breaks after the first `!result.success`. -/
def executeCommands (env : Env) :
    List String → ServiceState → List TerminalCommandResult × ServiceState × List Event
  | [], s => ([], s, [])
  | command :: rest, s =>
    let (result, s1, t1) := executeCommand env command none s
    if result.success then
      let (rs, s2, t2) := executeCommands env rest s1
      (result :: rs, s2, t1 ++ t2)
    else
      ([result], s1, t1)

/-- The return record of `startProcess`. -/
structure StartResult where
  success : Bool
  terminalId : Option String := none
deriving DecidableEq, Repr

/-- `startProcess(name, command)`: fails if the name is registered; otherwise
creates a session (no permission check in the source), writes the command and
registers the mapping. -/
def startProcess (env : Env) (name command : String) (s : ServiceState) :
    StartResult × ServiceState × List Event :=
  match s.activeProcesses.lookup name with
  | some _ => ({ success := false }, s, [])
  | none =>
    let opts : SessionOpts := { name := some ("AI: " ++ name),
                                cwd := s.config.projectPath }
    match env.createSession opts with
    | .error _ => ({ success := false }, s, [.createSession opts])
    | .ok session =>
      ({ success := true, terminalId := some session.id },
       { s with activeProcesses := s.activeProcesses ++ [(name, session.id)] },
       [.createSession opts, .write session.id (command ++ "\n")])

/-- `stopProcess(name)`: `false` for an unregistered name; otherwise closes
the mapped session and deletes the mapping. -/
def stopProcess (_env : Env) (name : String) (s : ServiceState) :
    Bool × ServiceState × List Event :=
  match s.activeProcesses.lookup name with
  | none => (false, s, [])
  | some terminalId =>
    (true,
     { s with activeProcesses := s.activeProcesses.eraseP (fun p => p.1 == name) },
     [.closeSession terminalId])

/-- `clearCommandHistory()`. -/
def clearCommandHistory (s : ServiceState) : ServiceState :=
  { s with commandHistory := [] }

/-- `getCommandHistory()` (returns a copy of the list). -/
def getCommandHistory (s : ServiceState) : List CommandHistoryEntry :=
  s.commandHistory

/-! ## File and folder operations -/

/-- Shared body of `createFile`/`editFile`/`deleteFile`/`renameFile`/
`createFolder`: permission gate, then the file-bus emission with its
`try`/`catch`. -/
def fileOpCore (env : Env) (path : String) (operation : String) (evt : FileEvt)
    (s : ServiceState) : FileOperationResult × ServiceState × List Event :=
  if s.config.fileOperationsEnabled = false then
    ({ success := false, path := path, operation := operation,
       error := some "File operations are disabled" }, s, [])
  else
    match env.fileEmit evt with
    | .error e =>
      ({ success := false, path := path, operation := operation, error := some e },
       s, [.fileEvt evt])
    | .ok _ =>
      ({ success := true, path := path, operation := operation }, s, [.fileEvt evt])

/-- `createFile(path, content)`: emits `file:write`. -/
def createFile (env : Env) (path content : String) (s : ServiceState) :
    FileOperationResult × ServiceState × List Event :=
  fileOpCore env path "create" (.write path content) s

/-- `editFile(path, content)`: emits `file:write`. -/
def editFile (env : Env) (path content : String) (s : ServiceState) :
    FileOperationResult × ServiceState × List Event :=
  fileOpCore env path "edit" (.write path content) s

/-- `deleteFile(path)`: emits `file:delete`. -/
def deleteFile (env : Env) (path : String) (s : ServiceState) :
    FileOperationResult × ServiceState × List Event :=
  fileOpCore env path "delete" (.delete path) s

/-- `renameFile(oldPath, newPath)`: emits `file:rename`; the result's `path`
is the old path. -/
def renameFile (env : Env) (oldPath newPath : String) (s : ServiceState) :
    FileOperationResult × ServiceState × List Event :=
  fileOpCore env oldPath "rename" (.rename oldPath newPath) s

/-- `createFolder(path)`: emits `folder:create`; same flag and message as the
file operations. -/
def createFolder (env : Env) (path : String) (s : ServiceState) :
    FileOperationResult × ServiceState × List Event :=
  fileOpCore env path "create" (.mkdir path) s

/-! ## Build and run operations -/

/-- `runBuild(command?)`: permission gate, then
`executeCommand(command || 'npm run build')`. -/
def runBuild (env : Env) (command : Option String) (s : ServiceState) :
    BuildResult × ServiceState × List Event :=
  if s.config.buildEnabled = false then
    ({ success := false, output := "Build operations are disabled", duration := 0 },
     s, [])
  else
    let buildCommand := jsOrStr command "npm run build"
    let (result, s1, t1) := executeCommand env buildCommand none s
    ({ success := result.success, output := result.output,
       errors := if result.success then none else some [result.output],
       duration := env.elapsed }, s1, t1)

/-- `runTests(pattern?)`: note — no `buildEnabled` check in the source. -/
def runTests (env : Env) (pattern : Option String) (s : ServiceState) :
    BuildResult × ServiceState × List Event :=
  let testCommand :=
    match pattern with
    | some p => if p = "" then "npm test" else "npm test -- " ++ p
    | none => "npm test"
  let (result, s1, t1) := executeCommand env testCommand none s
  ({ success := result.success, output := result.output,
     duration := result.duration }, s1, t1)

/-- `runDev()`: `startProcess('dev', 'npm run dev')`. -/
def runDev (env : Env) (s : ServiceState) :
    StartResult × ServiceState × List Event :=
  startProcess env "dev" "npm run dev" s

/-- `runApp(command?)`: `startProcess('app', command || 'npm start')`. -/
def runApp (env : Env) (command : Option String) (s : ServiceState) :
    StartResult × ServiceState × List Event :=
  startProcess env "app" (jsOrStr command "npm start") s

/-! ## Git operations -/

/-- The synthesized disabled result shared by every git operation. -/
def disabledGitResult (operation : String) : GitOperationResult :=
  { success := false, operation := operation,
    error := some "Git operations are disabled" }

/-- Shared body of the git wrappers: permission gate, backend call with
`try`/`catch`, result with an optional data payload projected from the
backend return (or from the wrapper's own argument, per source). -/
def gitOpCore (env : Env) (operation : String) (call : GitCall)
    (dataOf : String → Option String) (s : ServiceState) :
    GitOperationResult × ServiceState × List Event :=
  if s.config.gitEnabled = false then
    (disabledGitResult operation, s, [])
  else
    match env.git call with
    | .error e =>
      ({ success := false, operation := operation, error := some e }, s, [.git call])
    | .ok d =>
      ({ success := true, operation := operation, data := dataOf d }, s, [.git call])

/-- `gitInit()`. -/
def gitInit (env : Env) (s : ServiceState) :
    GitOperationResult × ServiceState × List Event :=
  gitOpCore env "init" .init (fun _ => none) s

/-- `gitStatus()`: returns the backend payload as data. -/
def gitStatus (env : Env) (s : ServiceState) :
    GitOperationResult × ServiceState × List Event :=
  gitOpCore env "status" .status (fun d => some d) s

/-- `gitAdd(path?)`: `addAll` for `'.'` or a falsy path, else `add(path)`. -/
def gitAdd (env : Env) (path : Option String) (s : ServiceState) :
    GitOperationResult × ServiceState × List Event :=
  let call : GitCall :=
    match path with
    | some p => if p = "." ∨ p = "" then .addAll else .add p
    | none => .addAll
  gitOpCore env "add" call (fun _ => none) s

/-- `gitCommit(message)`: data is the returned sha. -/
def gitCommit (env : Env) (message : String) (s : ServiceState) :
    GitOperationResult × ServiceState × List Event :=
  gitOpCore env "commit" (.commit message) (fun d => some d) s

/-- `gitBranch(name, checkout?)`: always calls
`gitService.checkout(name, true)` — the `checkout` parameter is ignored by
the source; data is the branch name argument. -/
def gitBranch (env : Env) (name : String) (_checkout : Option Bool)
    (s : ServiceState) : GitOperationResult × ServiceState × List Event :=
  gitOpCore env "branch" (.checkout name (some true)) (fun _ => some name) s

/-- `gitCheckout(branch)`: calls `checkout(branch)` with no create flag. -/
def gitCheckout (env : Env) (branch : String) (s : ServiceState) :
    GitOperationResult × ServiceState × List Event :=
  gitOpCore env "checkout" (.checkout branch none) (fun _ => some branch) s

/-- `gitPush(remote?, branch?, credentials?)`. -/
def gitPush (env : Env) (remote branch : Option String)
    (credentials : Option (String × String)) (s : ServiceState) :
    GitOperationResult × ServiceState × List Event :=
  gitOpCore env "push"
    (.push (jsOrStr remote "origin") (jsOrStr branch "main") credentials)
    (fun _ => none) s

/-- `gitPull(remote?, branch?, credentials?)`. -/
def gitPull (env : Env) (remote branch : Option String)
    (credentials : Option (String × String)) (s : ServiceState) :
    GitOperationResult × ServiceState × List Event :=
  gitOpCore env "pull"
    (.pull (jsOrStr remote "origin") (jsOrStr branch "main") credentials)
    (fun _ => none) s

/-- `gitLog(depth?)`: `log(depth || 20)` (zero, `NaN` and absent all fall
back to 20). -/
def gitLog (env : Env) (depth : Option Int) (s : ServiceState) :
    GitOperationResult × ServiceState × List Event :=
  let d : Int :=
    match depth with
    | some k => if k = 0 then 20 else k
    | none => 20
  gitOpCore env "log" (.log d) (fun d => some d) s

/-- `gitDiff(filepath)`. -/
def gitDiff (env : Env) (filepath : String) (s : ServiceState) :
    GitOperationResult × ServiceState × List Event :=
  gitOpCore env "diff" (.diff filepath) (fun d => some d) s

/-- `gitBranches()`. -/
def gitBranches (env : Env) (s : ServiceState) :
    GitOperationResult × ServiceState × List Event :=
  gitOpCore env "branches" .branches (fun d => some d) s

/-! ## Deployment -/

/-- `deployToVercel(projectName, files, options?)`: permission gate, token
lookup (`config.vercelToken || localStorage.getItem('vercelToken')`), then
`quickDeploy` with its `try`/`catch`. -/
def deployToVercel (env : Env) (projectName : String)
    (files : List (String × String)) (s : ServiceState) :
    DeployResult × ServiceState × List Event :=
  if s.config.deployEnabled = false then
    ({ success := false, error := some "Deployment operations are disabled" }, s, [])
  else
    let token := jsOrS s.config.vercelToken env.localVercelToken
    if jsTruthyS token = false then
      ({ success := false, error := some "Vercel token not configured" }, s, [])
    else
      let t := token.getD ""
      match env.quickDeploy files projectName t with
      | .error e =>
        ({ success := false, error := some e }, s, [.deploy files projectName t])
      | .ok deployment =>
        ({ success := true,
           url := some (jsOrStr deployment.readyUrl ("https://" ++ deployment.url)),
           deploymentId := some deployment.id, state := some deployment.state },
         s, [.deploy files projectName t])

/-! ## The execution orchestrator (`executeOperations`) -/

/-- The five result collections returned by `executeOperations`. -/
structure ExecResults where
  terminalResults : List TerminalCommandResult
  fileResults : List FileOperationResult
  buildResults : List BuildResult
  deployResults : List DeployResult
  gitResults : List GitOperationResult
deriving DecidableEq, Repr

/-- Phase 1: `// Execute folder operations first` — only `create` is handled
(`folder_delete` directives are silently skipped) and the result of
`createFolder` is discarded. -/
def runFolderPhase (env : Env) :
    List FolderOp → ServiceState → ServiceState × List Event
  | [], s => (s, [])
  | op :: rest, s =>
    if op.type = "create" then
      let (_, s1, t1) := createFolder env op.path s
      let (s2, t2) := runFolderPhase env rest s1
      (s2, t1 ++ t2)
    else
      runFolderPhase env rest s

/-- Phase 2: file operations.  Unknown types hit `default: continue`.  The
source passes `op.path` (always set by the extractor for these kinds; an
absent field is coerced to `""` here) and `op.content || ''` /
`op.from || ''` / `op.to || ''`. -/
def runFilePhase (env : Env) :
    List FileOp → ServiceState → List FileOperationResult × ServiceState × List Event
  | [], s => ([], s, [])
  | op :: rest, s =>
    let step : Option (FileOperationResult × ServiceState × List Event) :=
      if op.type = "create" then
        some (createFile env (op.path.getD "") (jsOrStr op.content "") s)
      else if op.type = "edit" then
        some (editFile env (op.path.getD "") (jsOrStr op.content "") s)
      else if op.type = "delete" then
        some (deleteFile env (op.path.getD "") s)
      else if op.type = "rename" then
        some (renameFile env (jsOrStr op.fromPath "") (jsOrStr op.toPath "") s)
      else none
    match step with
    | some (result, s1, t1) =>
      let (rs, s2, t2) := runFilePhase env rest s1
      (result :: rs, s2, t1 ++ t2)
    | none => runFilePhase env rest s

/-- Phase 3: terminal commands.  `run` executes only when `cmd.command` is
truthy; `sequence` always runs (`cmd.commands` is a — possibly empty — array
for parsed sequences, and arrays are truthy); `start`/`stop` discard their
results and contribute nothing to `terminalResults`. -/
def runTerminalPhase (env : Env) :
    List TerminalCmdOp → ServiceState →
    List TerminalCommandResult × ServiceState × List Event
  | [], s => ([], s, [])
  | cmd :: rest, s =>
    if cmd.type = "run" then
      if jsTruthyS cmd.command then
        let (r, s1, t1) := executeCommand env (cmd.command.getD "") none s
        let (rs, s2, t2) := runTerminalPhase env rest s1
        (r :: rs, s2, t1 ++ t2)
      else runTerminalPhase env rest s
    else if cmd.type = "sequence" then
      match cmd.commands with
      | some commands =>
        let (rs1, s1, t1) := executeCommands env commands s
        let (rs2, s2, t2) := runTerminalPhase env rest s1
        (rs1 ++ rs2, s2, t1 ++ t2)
      | none => runTerminalPhase env rest s
    else if cmd.type = "start" then
      if jsTruthyS cmd.name && jsTruthyS cmd.command then
        let (_, s1, t1) := startProcess env (cmd.name.getD "") (cmd.command.getD "") s
        let (rs, s2, t2) := runTerminalPhase env rest s1
        (rs, s2, t1 ++ t2)
      else runTerminalPhase env rest s
    else if cmd.type = "stop" then
      if jsTruthyS cmd.name then
        let (_, s1, t1) := stopProcess env (cmd.name.getD "") s
        let (rs, s2, t2) := runTerminalPhase env rest s1
        (rs, s2, t1 ++ t2)
      else runTerminalPhase env rest s
    else runTerminalPhase env rest s

/-- Phase 4: build operations.  `dev` and `run` discard their results and
contribute nothing to `buildResults`. -/
def runBuildPhase (env : Env) :
    List BuildOp → ServiceState → List BuildResult × ServiceState × List Event
  | [], s => ([], s, [])
  | op :: rest, s =>
    if op.type = "build" then
      let (r, s1, t1) := runBuild env op.command s
      let (rs, s2, t2) := runBuildPhase env rest s1
      (r :: rs, s2, t1 ++ t2)
    else if op.type = "test" then
      let (r, s1, t1) := runTests env op.pattern s
      let (rs, s2, t2) := runBuildPhase env rest s1
      (r :: rs, s2, t1 ++ t2)
    else if op.type = "dev" then
      let (_, s1, t1) := runDev env s
      let (rs, s2, t2) := runBuildPhase env rest s1
      (rs, s2, t1 ++ t2)
    else if op.type = "run" then
      let (_, s1, t1) := runApp env op.command s
      let (rs, s2, t2) := runBuildPhase env rest s1
      (rs, s2, t1 ++ t2)
    else runBuildPhase env rest s

/-- Phase 5: git operations.  Unknown types hit `default: continue`.
Required string arguments are always set by the extractor; an absent field
is coerced to `""`. -/
def runGitPhase (env : Env) :
    List GitOp → ServiceState → List GitOperationResult × ServiceState × List Event
  | [], s => ([], s, [])
  | op :: rest, s =>
    let step : Option (GitOperationResult × ServiceState × List Event) :=
      if op.type = "init" then some (gitInit env s)
      else if op.type = "status" then some (gitStatus env s)
      else if op.type = "add" then some (gitAdd env op.args.path s)
      else if op.type = "commit" then some (gitCommit env (op.args.message.getD "") s)
      else if op.type = "branch" then
        some (gitBranch env (op.args.name.getD "") op.args.checkout s)
      else if op.type = "checkout" then
        some (gitCheckout env (op.args.branch.getD "") s)
      else if op.type = "push" then
        some (gitPush env op.args.remote op.args.branch none s)
      else if op.type = "pull" then
        some (gitPull env op.args.remote op.args.branch none s)
      else if op.type = "log" then some (gitLog env op.args.depth s)
      else if op.type = "diff" then some (gitDiff env (op.args.file.getD "") s)
      else none
    match step with
    | some (result, s1, t1) =>
      let (rs, s2, t2) := runGitPhase env rest s1
      (result :: rs, s2, t1 ++ t2)
    | none => runGitPhase env rest s

/-- Phase 6: deploy operations — only `platform === 'vercel'` is handled;
the files record is the empty object (`const files = {}` in the source). -/
def runDeployPhase (env : Env) :
    List DeployOp → ServiceState → List DeployResult × ServiceState × List Event
  | [], s => ([], s, [])
  | op :: rest, s =>
    if op.platform = "vercel" then
      let (r, s1, t1) := deployToVercel env op.project [] s
      let (rs, s2, t2) := runDeployPhase env rest s1
      (r :: rs, s2, t1 ++ t2)
    else runDeployPhase env rest s

/-- `executeOperations(operations)`: the six phases in source order —
folders, files, terminal, build/run, git, deploy. -/
def executeOperations (env : Env) (operations : OperationBatch) (s : ServiceState) :
    ExecResults × ServiceState × List Event :=
  let (s1, t1) := runFolderPhase env operations.folderOperations s
  let (fileResults, s2, t2) := runFilePhase env operations.fileOperations s1
  let (terminalResults, s3, t3) := runTerminalPhase env operations.terminalCommands s2
  let (buildResults, s4, t4) := runBuildPhase env operations.buildOperations s3
  let (gitResults, s5, t5) := runGitPhase env operations.gitOperations s4
  let (deployResults, s6, t6) := runDeployPhase env operations.deployOperations s5
  ({ terminalResults := terminalResults, fileResults := fileResults,
     buildResults := buildResults, deployResults := deployResults,
     gitResults := gitResults },
   s6, t1 ++ t2 ++ t3 ++ t4 ++ t5 ++ t6)

/-! ## The response sanitizer (`cleanResponse`)

The replacement labels are embedded with the exact code points of the source
file (whose emoji bytes are mojibake-encoded). -/

/-- Label for `terminal_run` spans. -/
def termRunLabel : String := "\n\uF8FF\u00FC\u00ED\u00AA Running command...\n"

/-- Label for `terminal_sequence` spans. -/
def termSeqLabel : String := "\n\uF8FF\u00FC\u00ED\u00AA Running commands...\n"

/-- Label for `terminal_start` spans. -/
def termStartLabel : String := "\n\uF8FF\u00FC\u00F6\u00C4 Starting process...\n"

/-- Label for `terminal_stop` spans. -/
def termStopLabel : String := "\n\u201A\u00E8\u03C0\u00D4\u220F\u00E8 Stopping process...\n"

/-- Label for `file_create` spans. -/
def fileCreateLabel : String := "\n\uF8FF\u00FC\u00EC\u00D1 Creating file...\n"

/-- Label for `file_edit` spans. -/
def fileEditLabel : String := "\n\uF8FF\u00FC\u00EC\u00F9 Editing file...\n"

/-- Label for `file_delete` spans. -/
def fileDeleteLabel : String := "\n\uF8FF\u00FC\u00F3\u00EB\u00D4\u220F\u00E8 Deleting file...\n"

/-- Label for `file_rename` spans. -/
def fileRenameLabel : String := "\n\uF8FF\u00FC\u00EC\u00E3 Renaming file...\n"

/-- Label for `folder_create` spans. -/
def folderCreateLabel : String := "\n\uF8FF\u00FC\u00EC\u00C5 Creating folder...\n"

/-- Label for `folder_delete` spans. -/
def folderDeleteLabel : String := "\n\uF8FF\u00FC\u00F3\u00EB\u00D4\u220F\u00E8 Deleting folder...\n"

/-- Label for `build` spans. -/
def buildLabel : String := "\n\uF8FF\u00FC\u00EE\u00AE Building...\n"

/-- Label for `test` spans. -/
def testLabel : String := "\n\uF8FF\u00FC\u00DF\u2122 Running tests...\n"

/-- Label for `run` spans. -/
def runTagLabel : String := "\n\u201A\u00F1\u2202\u00D4\u220F\u00E8 Running...\n"

/-- Label for `dev` spans. -/
def devLabel : String := "\n\uF8FF\u00FC\u00EE\u00DF Starting dev server...\n"

/-- Label for `deploy` spans. -/
def deployLabel : String := "\n\uF8FF\u00FC\u00F6\u00C4 Deploying...\n"

/-- Label for `git_*` spans. -/
def gitLabel : String := "\n\uF8FF\u00FC\u00EC\u00B6 Git operation...\n"

/-- Discard a matcher's captures, keeping only the unconsumed suffix —
the sanitizer patterns that coincide with the extractor's reuse the same
matcher through this adapter. -/
def cOf (m : List Char → Option (α × List Char)) (s : List Char) :
    Option (List Char) :=
  (m s).map (·.2)

/-- The sanitizer's `/<terminal_start\s+name="[^"]+">[^<]*<\/terminal_start>/`:
unlike the extractor's pattern, the body class is `[^<]*`. -/
def cTerminalStart (s : List Char) : Option (List Char) :=
  match stripLit "<terminal_start".data s with
  | none => none
  | some s1 =>
    match matchAttr "name" s1 with
    | none => none
    | some (_, s2) =>
      match stripLit [ '>' ] s2 with
      | none => none
      | some s3 =>
        match bodyNoLt "</terminal_start>".data s3 with
        | some (_, rest) => some rest
        | none => none

/-- The sanitizer's `/<build[^>]*\/>/`, `/<test[^>]*\/>/`, `/<run[^>]*\/>/`
shape (note: broader than the extractor's patterns). -/
def cBroadSelf (openTag : String) (s : List Char) : Option (List Char) :=
  match stripLit openTag.data s with
  | none => none
  | some s1 => untilSelfClose s1

/-- The sanitizer's `/<deploy[^>]*(?:\/>|>[\s\S]*?<\/deploy>)/`: the greedy
`[^>]*` runs to the first `>`; backtracking order tries the block arm at that
`>` first, then the self-closing arm one character earlier. -/
def cDeploy (s : List Char) : Option (List Char) :=
  match stripLit "<deploy".data s with
  | none => none
  | some s1 =>
    match s1.dropWhile (· != '>') with
    | '>' :: rest =>
      match lazyBody "</deploy>".data rest with
      | some (_, r) => some r
      | none =>
        let region := s1.takeWhile (· != '>')
        if region ≠ [] ∧ region.getLast? = some '/' then some rest else none
    | _ => none

/-- JS `\w`. -/
def isWordChar (c : Char) : Bool := c.isAlphanum || c == '_'

/-- The sanitizer's `/<git_\w+[^>]*\/>/`. -/
def cGitTag (s : List Char) : Option (List Char) :=
  match stripLit "<git_".data s with
  | none => none
  | some s1 =>
    match s1 with
    | c :: _ =>
      if isWordChar c then untilSelfClose (s1.dropWhile isWordChar) else none
    | [] => none

/-- JS `String.prototype.replace` with a `/g` pattern and a plain replacement
string: replace each leftmost non-overlapping match, resuming after it. -/
def replaceAll (m : List Char → Option (List Char)) (label : List Char) :
    Nat → List Char → List Char
  | 0, s => s
  | _ + 1, [] => []
  | fuel + 1, s@(c :: cs) =>
    match m s with
    | some rest => label ++ replaceAll m label fuel rest
    | none => c :: replaceAll m label fuel cs

/-- One `.replace(pattern, label)` pass. -/
def applyReplace (m : List Char → Option (List Char)) (label : String)
    (s : List Char) : List Char :=
  replaceAll m label.data (s.length + 1) s

/-- `cleanResponse(response)`: the sixteen `.replace` passes in source order,
then `.trim()`. -/
def cleanResponse (response : String) : String :=
  let s := response.data
  let s := applyReplace (cOf mTerminalRun) termRunLabel s
  let s := applyReplace (cOf mTerminalSeq) termSeqLabel s
  let s := applyReplace cTerminalStart termStartLabel s
  let s := applyReplace (cOf mTerminalStop) termStopLabel s
  let s := applyReplace (cOf mFileCreate) fileCreateLabel s
  let s := applyReplace (cOf mFileEdit) fileEditLabel s
  let s := applyReplace (cOf mFileDelete) fileDeleteLabel s
  let s := applyReplace (cOf mFileRename) fileRenameLabel s
  let s := applyReplace (cOf mFolderCreate) folderCreateLabel s
  let s := applyReplace (cOf mFolderDelete) folderDeleteLabel s
  let s := applyReplace (cBroadSelf "<build") buildLabel s
  let s := applyReplace (cBroadSelf "<test") testLabel s
  let s := applyReplace (cBroadSelf "<run") runTagLabel s
  let s := applyReplace (cOf mDev) devLabel s
  let s := applyReplace cDeploy deployLabel s
  let s := applyReplace cGitTag gitLabel s
  String.mk (jsTrimData s)

/-! ## Event-domain predicates -/

/-- Terminal-session collaborator events. -/
def Event.isTerminalEvt : Event → Bool
  | .createSession _ => true
  | .execCommand _ _ => true
  | .write _ _ => true
  | .closeSession _ => true
  | _ => false

/-- File-bus collaborator events. -/
def Event.isFileBusEvt : Event → Bool
  | .fileEvt _ => true
  | _ => false

/-- Folder-creation events. -/
def Event.isFolderEvt : Event → Bool
  | .fileEvt (.mkdir _) => true
  | _ => false

/-- Git-backend collaborator events. -/
def Event.isGitEvt : Event → Bool
  | .git _ => true
  | _ => false

/-- Deploy-backend collaborator events. -/
def Event.isDeployEvt : Event → Bool
  | .deploy _ _ _ => true
  | _ => false

/-- The file-operation discriminators handled by `executeOperations`
(anything else hits `default: continue`). -/
def isHandledFileType (t : String) : Bool :=
  t == "create" || t == "edit" || t == "delete" || t == "rename"

/-- The git-operation discriminators handled by `executeOperations`. -/
def isHandledGitType (t : String) : Bool :=
  t == "init" || t == "status" || t == "add" || t == "commit" || t == "branch" ||
  t == "checkout" || t == "push" || t == "pull" || t == "log" || t == "diff"

/-- The build-operation discriminators that push a `BuildResult`
(`dev` and `run` discard theirs). -/
def pushesBuildResult (t : String) : Bool := t == "build" || t == "test"

/-! ## Concrete fixtures for the verified properties -/

/-- A benign collaborator environment: every call succeeds. -/
def testEnv : Env :=
  { createSession := fun _ => .ok { id := "s1" },
    execCommand := fun _ cmd => .ok { output := "out:" ++ cmd, exitCode := 0 },
    fileEmit := fun _ => .ok (),
    git := fun _ => .ok "gitdata",
    quickDeploy := fun _ _ _ =>
      .ok { url := "app.vercel.app", id := "dep1", state := "READY",
            readyUrl := some "https://r" },
    localVercelToken := some "tok",
    elapsed := 5 }

/-- An environment in which the command `"b"` exits nonzero and every other
command exits 0. -/
def envFailB : Env :=
  { testEnv with
    execCommand := fun _ cmd =>
      .ok { output := "", exitCode := if cmd = "b" then 1 else 0 } }

/-- A text whose `file_edit` tag occurs before its `file_create` tag. -/
def x4 : String :=
  "<file_edit path=\"a\">x</file_edit><file_create path=\"b\">y</file_create>"

/-- A text with a `file_create` occurrence missing its required `path`
attribute, next to well-formed `file_edit` and `terminal_run` tags. -/
def x5 : String :=
  "pre <file_create>no path</file_create> <file_edit path=\"a\">b</file_edit> <terminal_run>ls</terminal_run>"

/-- A text with a `file_create` occurrence that has no matching close tag
(no `</file_create>` occurs anywhere), next to well-formed `file_edit` and
`terminal_run` tags. -/
def x5b : String :=
  "pre <file_create path=\"c\">orphan body <file_edit path=\"a\">b</file_edit> <terminal_run>ls</terminal_run>"

/-- A `terminal_start` directive whose body contains `<`: recognized by the
extractor, but not by the sanitizer's `[^<]*` pattern. -/
def x8 : String :=
  "<terminal_start name=\"d\"><file_delete path=\"p\"/></terminal_start>"

/-- What the sanitizer makes of `x8`: only the inner `file_delete` span is
replaced; the `terminal_start` tags survive. -/
def x8Cleaned : String :=
  "<terminal_start name=\"d\">" ++ fileDeleteLabel ++ "</terminal_start>"

/-- A text holding one `terminal_run` span and one `file_create` span. -/
def x8a : String :=
  "<terminal_run>ls</terminal_run><file_create path=\"a\">b</file_create>"

/-- A batch with one build directive and one git directive. -/
def batchBuildGit : OperationBatch :=
  { terminalCommands := [], fileOperations := [], folderOperations := [],
    buildOperations := [{ type := "build" }], deployOperations := [],
    gitOperations := [{ type := "status", args := {} }] }

/-- A batch holding exactly one `dev` directive. -/
def batchDev : OperationBatch :=
  { terminalCommands := [], fileOperations := [], folderOperations := [],
    buildOperations := [{ type := "dev" }], deployOperations := [],
    gitOperations := [] }

/-- A batch holding exactly one `terminal_start` directive. -/
def batchStart : OperationBatch :=
  { terminalCommands :=
      [{ type := "start", name := some "dev", command := some "npm run dev" }],
    fileOperations := [], folderOperations := [], buildOperations := [],
    deployOperations := [], gitOperations := [] }

/-- A fresh service whose terminal permission flag is off. -/
def noTerminalState : ServiceState :=
  { config := { defaultConfig with terminalEnabled := false } }

/-- A fresh service with every permission flag off. -/
def allDisabledState : ServiceState :=
  { config := { defaultConfig with
      terminalEnabled := false, fileOperationsEnabled := false,
      buildEnabled := false, deployEnabled := false, gitEnabled := false } }

/-! ## Helper lemmas: matcher consumption bounds -/

/-- A successful literal match consumes exactly the literal. -/
theorem stripLit_length (p : List Char) :
    ∀ s r, stripLit p s = some r → r.length + p.length = s.length := by
  induction p with
  | nil =>
    intro s r h
    simp only [stripLit, Option.some.injEq] at h
    subst h; simp
  | cons c cs ih =>
    intro s r h
    cases s with
    | nil => simp [stripLit] at h
    | cons d ds =>
      simp only [stripLit] at h
      split at h
      · have := ih ds r h
        simp only [List.length_cons]
        omega
      · exact absurd h (by simp)

/-- `dropWhile` never lengthens a list. -/
theorem length_dropWhile_le (p : Char → Bool) (l : List Char) :
    (l.dropWhile p).length ≤ l.length :=
  (List.dropWhile_sublist p).length_le

/-- `\s+` consumes at least one character. -/
theorem ws1_lt : ∀ s r, ws1 s = some r → r.length < s.length := by
  intro s r h
  cases s with
  | nil => simp [ws1] at h
  | cons c cs =>
    simp only [ws1] at h
    split at h
    · simp only [Option.some.injEq] at h
      subst h
      have := length_dropWhile_le isJsSpace cs
      simp only [List.length_cons]
      omega
    · exact absurd h (by simp)

/-- An attribute match consumes at least one character. -/
theorem matchAttr_lt (k : String) :
    ∀ s cap rest, matchAttr k s = some (cap, rest) → rest.length < s.length := by
  intro s cap rest h
  unfold matchAttr at h
  split at h
  · exact absurd h (by simp)
  · next s1 hw =>
    split at h
    · exact absurd h (by simp)
    · next s2 hl =>
      split at h
      · exact absurd h (by simp)
      · split at h
        · next qs hd =>
          simp only [Option.some.injEq, Prod.mk.injEq] at h
          have h1 := ws1_lt s s1 hw
          have h2 := stripLit_length _ s1 s2 hl
          have h3 : (s2.dropWhile (· != '"')).length ≤ s2.length :=
            length_dropWhile_le _ s2
          rw [hd] at h3
          simp only [List.length_cons] at h3
          have hr : qs = rest := h.2
          subst hr
          simp only [List.length_append] at h2
          omega
        · exact absurd h (by simp)

/-- An attribute capture is nonempty (`[^"]+`). -/
theorem matchAttr_cap_ne (k : String) :
    ∀ s cap rest, matchAttr k s = some (cap, rest) → cap ≠ [] := by
  intro s cap rest h
  unfold matchAttr at h
  split at h
  · exact absurd h (by simp)
  · split at h
    · exact absurd h (by simp)
    · next s2 hl =>
      split at h
      · exact absurd h (by simp)
      · next hne =>
        split at h
        · simp only [Option.some.injEq, Prod.mk.injEq] at h
          rw [← h.1]
          exact hne
        · exact absurd h (by simp)

/-- A lazy body match never lengthens the input. -/
theorem lazyBody_le (close : List Char) :
    ∀ s cap rest, lazyBody close s = some (cap, rest) → rest.length ≤ s.length := by
  intro s
  induction s with
  | nil =>
    intro cap rest h
    simp only [lazyBody] at h
    split at h
    · next r hs =>
      simp only [Option.some.injEq, Prod.mk.injEq] at h
      have hh := stripLit_length close [] r hs
      obtain ⟨-, h2⟩ := h
      subst h2
      simp only [List.length_nil] at hh ⊢
      omega
    · exact absurd h (by simp)
  | cons c cs ih =>
    intro cap rest h
    simp only [lazyBody] at h
    split at h
    · next r hs =>
      simp only [Option.some.injEq, Prod.mk.injEq] at h
      have hh := stripLit_length close (c :: cs) r hs
      obtain ⟨-, h2⟩ := h
      subst h2
      omega
    · split at h
      · next pcap prest hlb =>
        simp only [Option.some.injEq, Prod.mk.injEq] at h
        obtain ⟨-, h2⟩ := h
        subst h2
        have := ih pcap prest hlb
        simp only [List.length_cons]
        omega
      · exact absurd h (by simp)

/-- `\s*\/>` consumes at least two characters. -/
theorem wsSelfClose_lt :
    ∀ s rest, wsSelfClose s = some rest → rest.length + 2 ≤ s.length := by
  intro s rest h
  unfold wsSelfClose at h
  have := stripLit_length ['/', '>'] _ rest h
  have := length_dropWhile_le isJsSpace s
  simp at *
  omega

/-- A `mPathBlock` match consumes at least one character. -/
theorem mPathBlock_lt (o c : String) :
    ∀ s cap rest, mPathBlock o c s = some (cap, rest) → rest.length < s.length := by
  intro s cap rest h
  unfold mPathBlock at h
  split at h
  · exact absurd h (by simp)
  · next s1 h0 =>
    split at h
    · exact absurd h (by simp)
    · next pv s2 h1 =>
      split at h
      · exact absurd h (by simp)
      · next s3 h2 =>
        split at h
        · next body r h3 =>
          simp only [Option.some.injEq, Prod.mk.injEq] at h
          obtain ⟨-, h4⟩ := h
          subst h4
          have a0 := stripLit_length o.data s s1 h0
          have a1 := matchAttr_lt "path" s1 pv s2 h1
          have a2 := stripLit_length ['>'] s2 s3 h2
          have a3 := lazyBody_le c.data s3 body r h3
          simp only [List.length_cons, List.length_nil] at a2
          omega
        · exact absurd h (by simp)

/-- A `mAttrSelf` match consumes at least one character. -/
theorem mAttrSelf_lt (o k : String) :
    ∀ s cap rest, mAttrSelf o k s = some (cap, rest) → rest.length < s.length := by
  intro s cap rest h
  unfold mAttrSelf at h
  split at h
  · exact absurd h (by simp)
  · next s1 h0 =>
    split at h
    · exact absurd h (by simp)
    · next v s2 h1 =>
      split at h
      · next r h2 =>
        simp only [Option.some.injEq, Prod.mk.injEq] at h
        obtain ⟨-, h3⟩ := h
        subst h3
        have a0 := stripLit_length o.data s s1 h0
        have a1 := matchAttr_lt k s1 v s2 h1
        have a2 := wsSelfClose_lt s2 r h2
        omega
      · exact absurd h (by simp)

/-- A `terminal_run` match consumes at least one character. -/
theorem mTerminalRun_lt :
    ∀ s cap rest, mTerminalRun s = some (cap, rest) → rest.length < s.length := by
  intro s cap rest h
  unfold mTerminalRun at h
  split at h
  · next s1 h0 =>
    have a0 := stripLit_length "<terminal_run>".data s s1 h0
    have a1 := lazyBody_le "</terminal_run>".data s1 cap rest h
    have a2 : ("<terminal_run>".data).length = 14 := rfl
    omega
  · exact absurd h (by simp)

/-- A `terminal_sequence` match consumes at least one character. -/
theorem mTerminalSeq_lt :
    ∀ s cap rest, mTerminalSeq s = some (cap, rest) → rest.length < s.length := by
  intro s cap rest h
  unfold mTerminalSeq at h
  split at h
  · next s1 h0 =>
    have a0 := stripLit_length "<terminal_sequence>".data s s1 h0
    have a1 := lazyBody_le "</terminal_sequence>".data s1 cap rest h
    have a2 : ("<terminal_sequence>".data).length = 19 := rfl
    omega
  · exact absurd h (by simp)

/-- A `terminal_start` match consumes at least one character. -/
theorem mTerminalStart_lt :
    ∀ s cap rest, mTerminalStart s = some (cap, rest) → rest.length < s.length := by
  intro s cap rest h
  unfold mTerminalStart at h
  split at h
  · exact absurd h (by simp)
  · next s1 h0 =>
    split at h
    · exact absurd h (by simp)
    · next nv s2 h1 =>
      split at h
      · exact absurd h (by simp)
      · next s3 h2 =>
        split at h
        · next body r h3 =>
          simp only [Option.some.injEq, Prod.mk.injEq] at h
          obtain ⟨-, h4⟩ := h
          subst h4
          have a0 := stripLit_length "<terminal_start".data s s1 h0
          have a1 := matchAttr_lt "name" s1 nv s2 h1
          have a2 := stripLit_length ['>'] s2 s3 h2
          have a3 := lazyBody_le "</terminal_start>".data s3 body r h3
          simp only [List.length_cons, List.length_nil] at a2
          omega
        · exact absurd h (by simp)

/-- A `terminal_stop` match consumes at least one character. -/
theorem mTerminalStop_lt :
    ∀ s cap rest, mTerminalStop s = some (cap, rest) → rest.length < s.length := by
  intro s cap rest h
  unfold mTerminalStop at h
  split at h
  · exact absurd h (by simp)
  · next s1 h0 =>
    split at h
    · exact absurd h (by simp)
    · next v s2 h1 =>
      split at h
      · next r h2 =>
        simp only [Option.some.injEq, Prod.mk.injEq] at h
        obtain ⟨-, h3⟩ := h
        subst h3
        have a0 := stripLit_length "<terminal_stop".data s s1 h0
        have a1 := matchAttr_lt "name" s1 v s2 h1
        have a2 := wsSelfClose_lt s2 r h2
        omega
      · exact absurd h (by simp)

/-- A `file_rename` match consumes at least one character. -/
theorem mFileRename_lt :
    ∀ s cap rest, mFileRename s = some (cap, rest) → rest.length < s.length := by
  intro s cap rest h
  unfold mFileRename at h
  split at h
  · exact absurd h (by simp)
  · next s1 h0 =>
    split at h
    · exact absurd h (by simp)
    · next fv s2 h1 =>
      split at h
      · exact absurd h (by simp)
      · next tv s3 h2 =>
        split at h
        · next r h3 =>
          simp only [Option.some.injEq, Prod.mk.injEq] at h
          obtain ⟨-, h4⟩ := h
          subst h4
          have a0 := stripLit_length "<file_rename".data s s1 h0
          have a1 := matchAttr_lt "from" s1 fv s2 h1
          have a2 := matchAttr_lt "to" s2 tv s3 h2
          have a3 := wsSelfClose_lt s3 r h3
          omega
        · exact absurd h (by simp)

/-! ## Helper lemmas: the scan yields strictly increasing positions -/

/-- Every match reported by `scanP` lies at or after the start position. -/
theorem scanP_pos_le (m : List Char → Option (α × List Char)) :
    ∀ fuel s pos q, q ∈ scanP m fuel s pos → pos ≤ q.1 := by
  intro fuel
  induction fuel with
  | zero => intro s pos q hq; simp [scanP] at hq
  | succ f ih =>
    intro s pos q hq
    cases s with
    | nil => simp [scanP] at hq
    | cons c cs =>
      simp only [scanP] at hq
      split at hq
      · next a rest _ =>
        rcases List.mem_cons.mp hq with hq | hq
        · subst hq; exact le_refl _
        · have := ih rest _ q hq
          omega
      · have := ih cs (pos + 1) q hq
        omega

/-- With a matcher that always consumes input, the reported positions are
strictly increasing. -/
theorem scanP_pairwise (m : List Char → Option (α × List Char))
    (hm : ∀ s a rest, m s = some (a, rest) → rest.length < s.length) :
    ∀ fuel s pos,
      List.Pairwise (fun p q => p.1 < q.1) (scanP m fuel s pos) := by
  intro fuel
  induction fuel with
  | zero => intro s pos; simp [scanP]
  | succ f ih =>
    intro s pos
    cases s with
    | nil => simp [scanP]
    | cons c cs =>
      simp only [scanP]
      split
      · next a rest hmr =>
        refine List.Pairwise.cons ?_ (ih rest _)
        intro q hq
        have h1 := scanP_pos_le m f rest (pos + ((c :: cs).length - rest.length)) q hq
        have h2 := hm (c :: cs) a rest hmr
        simp only [List.length_cons] at h2 h1
        omega
      · exact ih cs (pos + 1)

/-- Positions in a whole-text scan are strictly increasing. -/
theorem scanM_pairwise (m : List Char → Option (α × List Char))
    (hm : ∀ s a rest, m s = some (a, rest) → rest.length < s.length)
    (s : List Char) :
    List.Pairwise (fun p q => p.1 < q.1) (scanM m s) :=
  scanP_pairwise m hm _ s 0

/-! ## C4 — within-domain ordering of extracted directives -/

/-- C4 (counterexample): in `x4` the `file_edit` tag occurs at position 0 and
the `file_create` tag at position 33, yet `parseOperations` returns the
create directive *first* — the file-domain order is not the textual order of
first appearance. -/
theorem parseOperations_not_textual_order :
    (parseOperations x4).fileOperations =
      [{ type := "create", path := some "b", content := some "y" },
       { type := "edit", path := some "a", content := some "x" }] ∧
    (scanM mFileCreate x4.data).map Prod.fst = [33] ∧
    (scanM mFileEdit x4.data).map Prod.fst = [0] := by
  decide

/-- C4 (amended): all occurrences of a given tag are extracted in textual
order (the scan positions strictly increase), and each domain list is the
concatenation of the per-kind lists in the source's fixed kind order
(create, edit, delete, rename for files; run, sequence, start, stop for
terminal) — so within-domain order is textual only among directives of the
same kind. -/
theorem parseOperations_kind_order (t : String) :
    (∃ l1 l2 l3 l4, (parseOperations t).fileOperations = l1 ++ l2 ++ l3 ++ l4 ∧
      l1.length = (scanM mFileCreate t.data).length ∧
      l2.length = (scanM mFileEdit t.data).length ∧
      l3.length = (scanM mFileDelete t.data).length ∧
      l4.length = (scanM mFileRename t.data).length ∧
      (∀ op ∈ l1, op.type = "create") ∧ (∀ op ∈ l2, op.type = "edit") ∧
      (∀ op ∈ l3, op.type = "delete") ∧ (∀ op ∈ l4, op.type = "rename")) ∧
    (∃ l1 l2 l3 l4, (parseOperations t).terminalCommands = l1 ++ l2 ++ l3 ++ l4 ∧
      l1.length = (scanM mTerminalRun t.data).length ∧
      l2.length = (scanM mTerminalSeq t.data).length ∧
      l3.length = (scanM mTerminalStart t.data).length ∧
      l4.length = (scanM mTerminalStop t.data).length ∧
      (∀ op ∈ l1, op.type = "run") ∧ (∀ op ∈ l2, op.type = "sequence") ∧
      (∀ op ∈ l3, op.type = "start") ∧ (∀ op ∈ l4, op.type = "stop")) ∧
    List.Pairwise (fun p q => p.1 < q.1) (scanM mFileCreate t.data) ∧
    List.Pairwise (fun p q => p.1 < q.1) (scanM mFileEdit t.data) ∧
    List.Pairwise (fun p q => p.1 < q.1) (scanM mFileDelete t.data) ∧
    List.Pairwise (fun p q => p.1 < q.1) (scanM mFileRename t.data) ∧
    List.Pairwise (fun p q => p.1 < q.1) (scanM mTerminalRun t.data) ∧
    List.Pairwise (fun p q => p.1 < q.1) (scanM mTerminalSeq t.data) ∧
    List.Pairwise (fun p q => p.1 < q.1) (scanM mTerminalStart t.data) ∧
    List.Pairwise (fun p q => p.1 < q.1) (scanM mTerminalStop t.data) := by
  refine ⟨⟨_, _, _, _, rfl, ?_, ?_, ?_, ?_, ?_, ?_, ?_, ?_⟩,
          ⟨_, _, _, _, rfl, ?_, ?_, ?_, ?_, ?_, ?_, ?_, ?_⟩, ?_, ?_, ?_, ?_, ?_, ?_, ?_, ?_⟩
  · simp
  · simp
  · simp
  · simp
  · intro op hop
    simp only [List.mem_map] at hop
    obtain ⟨pm, -, rfl⟩ := hop
    rfl
  · intro op hop
    simp only [List.mem_map] at hop
    obtain ⟨pm, -, rfl⟩ := hop
    rfl
  · intro op hop
    simp only [List.mem_map] at hop
    obtain ⟨pm, -, rfl⟩ := hop
    rfl
  · intro op hop
    simp only [List.mem_map] at hop
    obtain ⟨pm, -, rfl⟩ := hop
    rfl
  · simp
  · simp
  · simp
  · simp
  · intro op hop
    simp only [List.mem_map] at hop
    obtain ⟨pm, -, rfl⟩ := hop
    rfl
  · intro op hop
    simp only [List.mem_map] at hop
    obtain ⟨pm, -, rfl⟩ := hop
    rfl
  · intro op hop
    simp only [List.mem_map] at hop
    obtain ⟨pm, -, rfl⟩ := hop
    rfl
  · intro op hop
    simp only [List.mem_map] at hop
    obtain ⟨pm, -, rfl⟩ := hop
    rfl
  · exact scanM_pairwise _ (fun s a r h => mPathBlock_lt _ _ s a r h) t.data
  · exact scanM_pairwise _ (fun s a r h => mPathBlock_lt _ _ s a r h) t.data
  · exact scanM_pairwise _ (fun s a r h => mAttrSelf_lt _ _ s a r h) t.data
  · exact scanM_pairwise _ (fun s a r h => mFileRename_lt s a r h) t.data
  · exact scanM_pairwise _ (fun s a r h => mTerminalRun_lt s a r h) t.data
  · exact scanM_pairwise _ (fun s a r h => mTerminalSeq_lt s a r h) t.data
  · exact scanM_pairwise _ (fun s a r h => mTerminalStart_lt s a r h) t.data
  · exact scanM_pairwise _ (fun s a r h => mTerminalStop_lt s a r h) t.data

/-! ## C5 — malformed directives are skipped, extraction is total -/

/-- Every scan entry comes from a successful anchored match. -/
theorem scanP_sound (m : List Char → Option (α × List Char)) :
    ∀ fuel s pos q, q ∈ scanP m fuel s pos →
      ∃ s' rest, m s' = some (q.2, rest) := by
  intro fuel
  induction fuel with
  | zero => intro s pos q hq; simp [scanP] at hq
  | succ f ih =>
    intro s pos q hq
    cases s with
    | nil => simp [scanP] at hq
    | cons c cs =>
      simp only [scanP] at hq
      split at hq
      · next a rest hmr =>
        rcases List.mem_cons.mp hq with hq | hq
        · subst hq; exact ⟨c :: cs, rest, hmr⟩
        · exact ih rest _ q hq
      · exact ih cs (pos + 1) q hq

/-- A `mPathBlock` path capture is nonempty. -/
theorem mPathBlock_cap_ne (o c : String) :
    ∀ s pv body rest, mPathBlock o c s = some ((pv, body), rest) → pv ≠ [] := by
  intro s pv body rest h
  unfold mPathBlock at h
  split at h
  · exact absurd h (by simp)
  · split at h
    · exact absurd h (by simp)
    · next pv' s2 h1 =>
      split at h
      · exact absurd h (by simp)
      · split at h
        · simp only [Option.some.injEq, Prod.mk.injEq] at h
          have : pv' = pv := h.1.1
          subst this
          exact matchAttr_cap_ne "path" _ pv' s2 h1
        · exact absurd h (by simp)

/-- A successful literal match leaves a suffix of the input. -/
theorem stripLit_suffix (p : List Char) :
    ∀ s r, stripLit p s = some r → r <:+ s := by
  induction p with
  | nil =>
    intro s r h
    simp only [stripLit, Option.some.injEq] at h
    subst h
    exact List.suffix_refl s
  | cons c cs ih =>
    intro s r h
    cases s with
    | nil => simp [stripLit] at h
    | cons d ds =>
      simp only [stripLit] at h
      split at h
      · exact (ih ds r h).trans (List.suffix_cons d ds)
      · exact absurd h (by simp)

/-- `\s+` leaves a suffix of the input. -/
theorem ws1_suffix : ∀ s r, ws1 s = some r → r <:+ s := by
  intro s r h
  cases s with
  | nil => simp [ws1] at h
  | cons c cs =>
    simp only [ws1] at h
    split at h
    · simp only [Option.some.injEq] at h
      subst h
      exact (List.dropWhile_suffix _).trans (List.suffix_cons c cs)
    · exact absurd h (by simp)

/-- An attribute match leaves a suffix of the input. -/
theorem matchAttr_suffix (k : String) :
    ∀ s cap rest, matchAttr k s = some (cap, rest) → rest <:+ s := by
  intro s cap rest h
  unfold matchAttr at h
  split at h
  · exact absurd h (by simp)
  · next s1 hw =>
    split at h
    · exact absurd h (by simp)
    · next s2 hl =>
      split at h
      · exact absurd h (by simp)
      · split at h
        · next qs hd =>
          simp only [Option.some.injEq, Prod.mk.injEq] at h
          obtain ⟨-, h2⟩ := h
          subst h2
          have hq : qs <:+ s2 := by
            have h1 : qs <:+ '"' :: qs := List.suffix_cons _ _
            rw [← hd] at h1
            exact h1.trans (List.dropWhile_suffix _)
          exact hq.trans ((stripLit_suffix _ s1 s2 hl).trans (ws1_suffix s s1 hw))
        · exact absurd h (by simp)

/-- A lazy body search that fails on a list also fails on its tail (failure
means the close literal occurs nowhere). -/
theorem lazyBody_none_cons (close : List Char) (c : Char) (cs : List Char)
    (h : lazyBody close (c :: cs) = none) : lazyBody close cs = none := by
  simp only [lazyBody] at h
  split at h
  · exact absurd h (by simp)
  · split at h
    · exact absurd h (by simp)
    · next hlb => exact hlb

/-- A lazy body search that fails on a list fails on every suffix. -/
theorem lazyBody_none_of_suffix (close : List Char) {s s' : List Char}
    (hs : s' <:+ s) (h : lazyBody close s = none) : lazyBody close s' = none := by
  obtain ⟨l, rfl⟩ := hs
  induction l with
  | nil => simpa using h
  | cons c cs ih => exact ih (lazyBody_none_cons close c (cs ++ s') h)

/-- A scan with a matcher that fails on every suffix finds nothing. -/
theorem scanP_eq_nil (m : List Char → Option (α × List Char)) :
    ∀ fuel s pos, (∀ s', s' <:+ s → m s' = none) → scanP m fuel s pos = [] := by
  intro fuel
  induction fuel with
  | zero => intro s pos _; simp [scanP]
  | succ f ih =>
    intro s pos hm
    cases s with
    | nil => simp [scanP]
    | cons c cs =>
      simp only [scanP]
      rw [hm (c :: cs) (List.suffix_refl _)]
      exact ih cs (pos + 1) (fun s' hs => hm s' (hs.trans (List.suffix_cons c cs)))

/-- A block tag whose close literal occurs nowhere in the input cannot
match: `mPathBlock` needs its close tag. -/
theorem mPathBlock_none_of_no_close (o c : String) (s : List Char)
    (h : lazyBody c.data s = none) : mPathBlock o c s = none := by
  cases hm : mPathBlock o c s with
  | none => rfl
  | some pr =>
    exfalso
    unfold mPathBlock at hm
    split at hm
    · exact absurd hm (by simp)
    · next s1 h0 =>
      split at hm
      · exact absurd hm (by simp)
      · next pv s2 h1 =>
        split at hm
        · exact absurd hm (by simp)
        · next s3 h2 =>
          split at hm
          · next body r h3 =>
            have hs3 : s3 <:+ s :=
              ((stripLit_suffix _ s2 s3 h2).trans
                (matchAttr_suffix "path" s1 pv s2 h1)).trans
                (stripLit_suffix _ s s1 h0)
            rw [lazyBody_none_of_suffix c.data hs3 h] at h3
            exact absurd h3 (by simp)
          · exact absurd hm (by simp)

/-- A `terminal_run` tag whose close literal occurs nowhere in the input
cannot match. -/
theorem mTerminalRun_none_of_no_close (s : List Char)
    (h : lazyBody "</terminal_run>".data s = none) : mTerminalRun s = none := by
  cases hm : mTerminalRun s with
  | none => rfl
  | some pr =>
    exfalso
    unfold mTerminalRun at hm
    split at hm
    · next s1 h0 =>
      rw [lazyBody_none_of_suffix "</terminal_run>".data
        (stripLit_suffix _ s s1 h0) h] at hm
      exact absurd hm (by simp)
    · exact absurd hm (by simp)

/-- C5: the extractor is a total function (it is defined for every input
string); both malformation modes of an occurrence yield zero directives for
it, leaving the remaining well-formed tags unaffected: an extracted
`file_create` always carries a nonempty `path` (so an occurrence missing the
required attribute yields no directive), and a text in which a block tag's
close literal occurs nowhere (`lazyBody … = none` is occurrence-failure of
the close tag) yields no directive of that kind — shown for `file_create`
and `terminal_run`.  Concretely: on `x5` (a path-less `<file_create>`
occurrence, close tag present) and on `x5b` (a `<file_create path=…>`
occurrence with no matching close tag) the surrounding well-formed
`file_edit` and `terminal_run` tags are still extracted, and the malformed
occurrence produces nothing. -/
theorem parseOperations_skips_malformed :
    (∀ t : String, ∀ op ∈ (parseOperations t).fileOperations,
      op.type = "create" → ∃ p, op.path = some p ∧ p ≠ "") ∧
    (∀ t : String, lazyBody "</file_create>".data t.data = none →
      ∀ op ∈ (parseOperations t).fileOperations, op.type ≠ "create") ∧
    (∀ t : String, lazyBody "</terminal_run>".data t.data = none →
      ∀ op ∈ (parseOperations t).terminalCommands, op.type ≠ "run") ∧
    (parseOperations x5).fileOperations =
      [{ type := "edit", path := some "a", content := some "b" }] ∧
    (parseOperations x5).terminalCommands =
      [{ type := "run", command := some "ls" }] ∧
    (parseOperations x5).folderOperations = [] ∧
    (parseOperations x5).buildOperations = [] ∧
    (parseOperations x5).deployOperations = [] ∧
    (parseOperations x5).gitOperations = [] ∧
    (parseOperations x5b).fileOperations =
      [{ type := "edit", path := some "a", content := some "b" }] ∧
    (parseOperations x5b).terminalCommands =
      [{ type := "run", command := some "ls" }] := by
  refine ⟨?_, ?_, ?_, by decide, by decide, by decide, by decide, by decide,
    by decide, by decide, by decide⟩
  · intro t op hop htype
    simp only [parseOperations, List.mem_append, List.mem_map] at hop
    rcases hop with ((⟨pm, hpm, rfl⟩ | ⟨pm, hpm, rfl⟩) | ⟨pm, hpm, rfl⟩) | ⟨pm, hpm, rfl⟩
    · refine ⟨String.mk pm.2.1, rfl, ?_⟩
      obtain ⟨s', rest, hm⟩ := scanP_sound _ _ _ _ _ hpm
      have hne : pm.2.1 ≠ [] := by
        have := mPathBlock_cap_ne "<file_create" "</file_create>" s' pm.2.1 pm.2.2 rest
        exact this (by exact hm)
      intro he
      apply hne
      have := congrArg String.data he
      simpa using this
    · exact absurd htype (by simp)
    · exact absurd htype (by simp)
    · exact absurd htype (by simp)
  · intro t hnone op hop
    have hnil : scanM mFileCreate t.data = [] :=
      scanP_eq_nil _ _ _ _ (fun s' hs =>
        mPathBlock_none_of_no_close "<file_create" "</file_create>" s'
          (lazyBody_none_of_suffix _ hs hnone))
    simp only [parseOperations, List.mem_append, List.mem_map] at hop
    rcases hop with ((⟨pm, hpm, rfl⟩ | ⟨pm, hpm, rfl⟩) | ⟨pm, hpm, rfl⟩) | ⟨pm, hpm, rfl⟩
    · rw [hnil] at hpm
      simp at hpm
    · simp
    · simp
    · simp
  · intro t hnone op hop
    have hnil : scanM mTerminalRun t.data = [] :=
      scanP_eq_nil _ _ _ _ (fun s' hs =>
        mTerminalRun_none_of_no_close s' (lazyBody_none_of_suffix _ hs hnone))
    simp only [parseOperations, List.mem_append, List.mem_map] at hop
    rcases hop with ((⟨pm, hpm, rfl⟩ | ⟨pm, hpm, rfl⟩) | ⟨pm, hpm, rfl⟩) | ⟨pm, hpm, rfl⟩
    · rw [hnil] at hpm
      simp at hpm
    · simp
    · simp
    · simp

/-- C5 (witness): instantiating the universally quantified parts — the
nonempty-path property at `x4` and its extracted create directive, and the
no-close-tag property at `x5b` (whose text contains no `</file_create>`)
with its extracted edit directive. -/
theorem parseOperations_skips_malformed_witness :
    (({ type := "create", path := some "b", content := some "y" } : FileOp) ∈
       (parseOperations x4).fileOperations ∧
     (∃ p, (({ type := "create", path := some "b",
               content := some "y" } : FileOp)).path = some p ∧ p ≠ "")) ∧
    (lazyBody "</file_create>".data x5b.data = none ∧
     ({ type := "edit", path := some "a", content := some "b" } : FileOp) ∈
       (parseOperations x5b).fileOperations ∧
     ({ type := "edit", path := some "a",
        content := some "b" } : FileOp).type ≠ "create") :=
  ⟨⟨by decide, parseOperations_skips_malformed.1 x4 _ (by decide) rfl⟩,
   ⟨by decide,
    by decide,
    parseOperations_skips_malformed.2.1 x5b (by decide) _ (by decide)⟩⟩

/-! ## C3 — fail-fast sequential execution of command sequences -/

/-- C3: `executeCommands` is strictly sequential and fail-fast — for three
commands whose second fails, exactly the two executed results are returned
(the failing one included), the third command is never dispatched (the trace
is exactly that of the first two), and in general every non-final result of
a sequence is a success. -/
theorem executeCommands_failFast (env : Env) (s : ServiceState) (c₁ c₂ c₃ : String)
    (h1 : (executeCommand env c₁ none s).1.success = true)
    (h2 : (executeCommand env c₂ none
            (executeCommand env c₁ none s).2.1).1.success = false) :
    executeCommands env [c₁, c₂, c₃] s =
      ([(executeCommand env c₁ none s).1,
        (executeCommand env c₂ none (executeCommand env c₁ none s).2.1).1],
       (executeCommand env c₂ none (executeCommand env c₁ none s).2.1).2.1,
       (executeCommand env c₁ none s).2.2 ++
         (executeCommand env c₂ none (executeCommand env c₁ none s).2.1).2.2) ∧
    (∀ cmds s', ∀ r ∈ (executeCommands env cmds s').1.dropLast,
       r.success = true) := by
  constructor
  · simp only [executeCommands, h1, h2]
    simp
  · intro cmds
    induction cmds with
    | nil => intro s' r hr; simp [executeCommands] at hr
    | cons c rest ih =>
      intro s' r hr
      simp only [executeCommands] at hr
      split at hr
      · next hsucc =>
        rcases hl : (executeCommands env rest (executeCommand env c none s').2.1).1
          with _ | ⟨x, xs⟩
        · rw [hl] at hr; simp at hr
        · rw [hl] at hr
          simp only [List.dropLast_cons₂, List.mem_cons] at hr
          rcases hr with rfl | hr
          · exact hsucc
          · exact ih _ r (by rw [hl]; exact hr)
      · simp at hr

/-- C3 (witness): under `envFailB` the first command succeeds, the second
fails, and the sequence returns exactly two results with no third dispatch. -/
theorem executeCommands_failFast_witness :
    (executeCommand envFailB "a" none initialState).1.success = true ∧
    (executeCommand envFailB "b" none
      (executeCommand envFailB "a" none initialState).2.1).1.success = false ∧
    executeCommands envFailB ["a", "b", "c"] initialState =
      ([(executeCommand envFailB "a" none initialState).1,
        (executeCommand envFailB "b" none
          (executeCommand envFailB "a" none initialState).2.1).1],
       (executeCommand envFailB "b" none
         (executeCommand envFailB "a" none initialState).2.1).2.1,
       (executeCommand envFailB "a" none initialState).2.2 ++
         (executeCommand envFailB "b" none
           (executeCommand envFailB "a" none initialState).2.1).2.2) :=
  ⟨by decide, by decide,
   (executeCommands_failFast envFailB initialState "a" "b" "c"
     (by decide) (by decide)).1⟩

/-! ## C6 — the named-process registry -/

/-- `lookup` misses exactly the keys that are absent. -/
theorem lookup_none_iff_not_mem (l : List (String × String)) (a : String) :
    l.lookup a = none ↔ a ∉ l.map Prod.fst := by
  induction l with
  | nil => simp
  | cons p t ih =>
    obtain ⟨k, v⟩ := p
    by_cases h : a = k
    · subst h
      simp [List.lookup_cons]
    · have hab : (a == k) = false := beq_eq_false_iff_ne.mpr h
      simp [List.lookup_cons, hab, ih, h]

/-- Erasing a key from a registry with distinct keys removes it entirely. -/
theorem lookup_eraseP_self (l : List (String × String)) (a : String)
    (hnd : (l.map Prod.fst).Nodup) :
    (l.eraseP (fun p => p.1 == a)).lookup a = none := by
  induction l with
  | nil => simp
  | cons p t ih =>
    obtain ⟨k, v⟩ := p
    simp only [List.map_cons, List.nodup_cons] at hnd
    simp only [List.eraseP_cons]
    by_cases h : k = a
    · subst h
      simp only [beq_self_eq_true, cond_true]
      exact (lookup_none_iff_not_mem t k).mpr hnd.1
    · have hka : (k == a) = false := beq_eq_false_iff_ne.mpr h
      have hak : (a == k) = false := beq_eq_false_iff_ne.mpr (Ne.symm h)
      simp only [hka, cond_false, List.lookup_cons, hak]
      exact ih hnd.2

/-- C6: the named-process registry maps a name to at most one session:
`startProcess` on a registered name fails with no side effect;
`stopProcess` on an unregistered name returns `false` with no side effect;
`stopProcess` on a registered name closes exactly the mapped session and
removes the mapping; both operations preserve distinctness of the registered
names; and once `stopProcess` succeeds, a re-`startProcess` of the same name
succeeds (provided session creation succeeds). -/
theorem namedProcess_registry (env : Env) (s : ServiceState) (name command : String) :
    (∀ tid, s.activeProcesses.lookup name = some tid →
       startProcess env name command s = ({ success := false }, s, [])) ∧
    (s.activeProcesses.lookup name = none →
       stopProcess env name s = (false, s, [])) ∧
    (∀ tid, s.activeProcesses.lookup name = some tid →
       stopProcess env name s =
         (true,
          { s with activeProcesses :=
              s.activeProcesses.eraseP (fun p => p.1 == name) },
          [.closeSession tid])) ∧
    ((s.activeProcesses.map Prod.fst).Nodup →
       ((startProcess env name command s).2.1.activeProcesses.map Prod.fst).Nodup ∧
       ((stopProcess env name s).2.1.activeProcesses.map Prod.fst).Nodup) ∧
    ((s.activeProcesses.map Prod.fst).Nodup →
      ∀ tid, s.activeProcesses.lookup name = some tid →
      ∀ sess, env.createSession
          { name := some ("AI: " ++ name), cwd := s.config.projectPath } = .ok sess →
        (startProcess env name command (stopProcess env name s).2.1).1.success
          = true) := by
  refine ⟨?_, ?_, ?_, ?_, ?_⟩
  · intro tid h
    simp [startProcess, h]
  · intro h
    simp [stopProcess, h]
  · intro tid h
    simp [stopProcess, h]
  · intro hnd
    constructor
    · cases hl : s.activeProcesses.lookup name with
      | some tid => simp [startProcess, hl, hnd]
      | none =>
        cases hc : env.createSession
            { name := some ("AI: " ++ name), cwd := s.config.projectPath } with
        | error e => simp [startProcess, hl, hc, hnd]
        | ok sess =>
          simp only [startProcess, hl, hc]
          simp only [List.map_append, List.map_cons, List.map_nil]
          rw [List.nodup_append]
          refine ⟨hnd, by simp, ?_⟩
          intro a ha hb
          simp only [List.mem_cons, List.not_mem_nil, or_false] at hb
          subst hb
          exact ((lookup_none_iff_not_mem _ _).mp hl) ha
    · cases hl : s.activeProcesses.lookup name with
      | none => simp [stopProcess, hl, hnd]
      | some tid =>
        simp only [stopProcess, hl]
        exact hnd.sublist ((List.eraseP_sublist _).map Prod.fst)
  · intro hnd tid hl sess hc
    simp only [stopProcess, hl]
    have hnone := lookup_eraseP_self s.activeProcesses name hnd
    simp [startProcess, hnone, hc]

/-- C6 (witness): start, duplicate-start failure, stop, restart on a
concrete environment — instantiating each hypothesis of the registry
theorem at the state in which `"dev"` is registered. -/
theorem namedProcess_registry_witness :
    (let s1 := (startProcess testEnv "dev" "npm run dev" initialState).2.1
     s1.activeProcesses.lookup "dev" = some "s1" ∧
     (s1.activeProcesses.map Prod.fst).Nodup ∧
     startProcess testEnv "dev" "npm run dev" s1 = ({ success := false }, s1, []) ∧
     stopProcess testEnv "dev" s1 =
       (true, { s1 with activeProcesses :=
                  s1.activeProcesses.eraseP (fun p => p.1 == "dev") },
        [.closeSession "s1"]) ∧
     (startProcess testEnv "dev" "npm run dev"
        (stopProcess testEnv "dev" s1).2.1).1.success = true) := by
  refine ⟨by decide, by decide, ?_, ?_, ?_⟩
  · exact (namedProcess_registry testEnv _ "dev" "npm run dev").1 "s1" (by decide)
  · exact (namedProcess_registry testEnv _ "dev" "npm run dev").2.2.1 "s1" (by decide)
  · exact (namedProcess_registry testEnv _ "dev" "npm run dev").2.2.2.2
      (by decide) "s1" (by decide) { id := "s1" } (by rfl)

/-! ## C10 — the parsed `checkout` attribute has no effect -/

/-- C10: `gitBranch` behaves identically for every value of the `checkout`
argument — the source always calls the git backend's `checkout` with
`create = true` — so the attribute extracted by the parser has no effect on
execution. -/
theorem gitBranch_ignores_checkout (env : Env) (s : ServiceState) (name : String)
    (co co' : Option Bool) :
    gitBranch env name co s = gitBranch env name co' s ∧
    (s.config.gitEnabled = true →
      (gitBranch env name co s).2.2 = [.git (.checkout name (some true))]) := by
  refine ⟨rfl, ?_⟩
  intro hg
  simp only [gitBranch, gitOpCore, hg]
  cases env.git (.checkout name (some true)) <;> simp

/-- C10 (witness): the two parsed `checkout` values `true` and `false`
produce the same call, and on an enabled config the backend is invoked with
`create = true`. -/
theorem gitBranch_ignores_checkout_witness :
    gitBranch testEnv "feat" (some true) initialState =
      gitBranch testEnv "feat" (some false) initialState ∧
    (gitBranch testEnv "feat" (some true) initialState).2.2 =
      [.git (.checkout "feat" (some true))] :=
  ⟨(gitBranch_ignores_checkout testEnv initialState "feat" (some true) (some false)).1,
   (gitBranch_ignores_checkout testEnv initialState "feat" (some true) (some false)).2
     rfl⟩

/-! ## C2 — permission-disabled domains -/

/-- C2 (counterexample): with the terminal permission off, a `terminal_start`
directive still *creates a session* and registers the process —
`startProcess` has no permission gate — contradicting the claim that every
directive of a disabled domain fails without invoking the collaborator. -/
theorem terminalStart_ignores_permission :
    noTerminalState.config.terminalEnabled = false ∧
    (executeOperations testEnv batchStart noTerminalState).2.2 =
      [.createSession { name := some "AI: dev", cwd := none },
       .write "s1" "npm run dev\n"] ∧
    (executeOperations testEnv batchStart noTerminalState).2.1.activeProcesses =
      [("dev", "s1")] := by
  decide

/-- C2 (amended): `executeCommand` (`terminal_run`/`terminal_sequence`), the
file and folder operations, `runBuild`, `deployToVercel` and every git
operation honor their domain's permission flag — when it is off they return
the fixed synthesized "operations disabled" failure result, unchanged state
and an empty collaborator trace.  (`startProcess`/`stopProcess` — reached by
`terminal_start`/`terminal_stop` — and `runTests`, `runDev`, `runApp` check
no flag; see the counterexample.) -/
theorem disabled_domains_no_side_effect (env : Env) (s : ServiceState)
    (command path content oldPath newPath message branch filepath projectName : String)
    (cwd optA optB : Option String) (optI : Option Int) (optCo : Option Bool)
    (creds : Option (String × String)) (files : List (String × String))
    (hT : s.config.terminalEnabled = false)
    (hF : s.config.fileOperationsEnabled = false)
    (hB : s.config.buildEnabled = false)
    (hD : s.config.deployEnabled = false)
    (hG : s.config.gitEnabled = false) :
    executeCommand env command cwd s = (disabledTerminalResult, s, []) ∧
    createFile env path content s =
      ({ success := false, path := path, operation := "create",
         error := some "File operations are disabled" }, s, []) ∧
    editFile env path content s =
      ({ success := false, path := path, operation := "edit",
         error := some "File operations are disabled" }, s, []) ∧
    deleteFile env path s =
      ({ success := false, path := path, operation := "delete",
         error := some "File operations are disabled" }, s, []) ∧
    renameFile env oldPath newPath s =
      ({ success := false, path := oldPath, operation := "rename",
         error := some "File operations are disabled" }, s, []) ∧
    createFolder env path s =
      ({ success := false, path := path, operation := "create",
         error := some "File operations are disabled" }, s, []) ∧
    runBuild env optA s =
      ({ success := false, output := "Build operations are disabled",
         duration := 0 }, s, []) ∧
    deployToVercel env projectName files s =
      ({ success := false, error := some "Deployment operations are disabled" },
       s, []) ∧
    gitInit env s = (disabledGitResult "init", s, []) ∧
    gitStatus env s = (disabledGitResult "status", s, []) ∧
    gitAdd env optA s = (disabledGitResult "add", s, []) ∧
    gitCommit env message s = (disabledGitResult "commit", s, []) ∧
    gitBranch env branch optCo s = (disabledGitResult "branch", s, []) ∧
    gitCheckout env branch s = (disabledGitResult "checkout", s, []) ∧
    gitPush env optA optB creds s = (disabledGitResult "push", s, []) ∧
    gitPull env optA optB creds s = (disabledGitResult "pull", s, []) ∧
    gitLog env optI s = (disabledGitResult "log", s, []) ∧
    gitDiff env filepath s = (disabledGitResult "diff", s, []) ∧
    gitBranches env s = (disabledGitResult "branches", s, []) := by
  refine ⟨?_, ?_, ?_, ?_, ?_, ?_, ?_, ?_, ?_, ?_, ?_, ?_, ?_, ?_, ?_, ?_, ?_, ?_, ?_⟩
  · simp [executeCommand, hT]
  · simp [createFile, fileOpCore, hF]
  · simp [editFile, fileOpCore, hF]
  · simp [deleteFile, fileOpCore, hF]
  · simp [renameFile, fileOpCore, hF]
  · simp [createFolder, fileOpCore, hF]
  · simp [runBuild, hB]
  · simp [deployToVercel, hD]
  · simp [gitInit, gitOpCore, hG]
  · simp [gitStatus, gitOpCore, hG]
  · simp [gitAdd, gitOpCore, hG]
  · simp [gitCommit, gitOpCore, hG]
  · simp [gitBranch, gitOpCore, hG]
  · simp [gitCheckout, gitOpCore, hG]
  · simp [gitPush, gitOpCore, hG]
  · simp [gitPull, gitOpCore, hG]
  · simp [gitLog, gitOpCore, hG]
  · simp [gitDiff, gitOpCore, hG]
  · simp [gitBranches, gitOpCore, hG]

/-- C2 (witness): the disabled-domain behavior at a concrete all-disabled
state and environment. -/
theorem disabled_domains_no_side_effect_witness :
    allDisabledState.config.terminalEnabled = false ∧
    allDisabledState.config.fileOperationsEnabled = false ∧
    allDisabledState.config.buildEnabled = false ∧
    allDisabledState.config.deployEnabled = false ∧
    allDisabledState.config.gitEnabled = false ∧
    executeCommand testEnv "ls" none allDisabledState =
      (disabledTerminalResult, allDisabledState, []) ∧
    gitInit testEnv allDisabledState =
      (disabledGitResult "init", allDisabledState, []) :=
  ⟨rfl, rfl, rfl, rfl, rfl,
   (disabled_domains_no_side_effect testEnv allDisabledState
     "ls" "" "" "" "" "" "" "" "" none none none none none none []
     rfl rfl rfl rfl rfl).1,
   (disabled_domains_no_side_effect testEnv allDisabledState
     "ls" "" "" "" "" "" "" "" "" none none none none none none []
     rfl rfl rfl rfl rfl).2.2.2.2.2.2.2.2.1⟩

/-! ## C1 — cross-domain phase order -/

/-- `fileOpCore` emits only file-bus events. -/
theorem fileOpCore_events (env : Env) (p o : String) (evt : FileEvt) (s : ServiceState) :
    ∀ e ∈ (fileOpCore env p o evt s).2.2, e.isFileBusEvt = true := by
  unfold fileOpCore
  split
  · simp
  · split
    · simp [Event.isFileBusEvt]
    · simp [Event.isFileBusEvt]

/-- `createFolder` emits only folder-creation events. -/
theorem createFolder_events (env : Env) (p : String) (s : ServiceState) :
    ∀ e ∈ (createFolder env p s).2.2, e.isFolderEvt = true := by
  unfold createFolder fileOpCore
  split
  · simp
  · split
    · simp [Event.isFolderEvt]
    · simp [Event.isFolderEvt]

/-- `executeCommand` emits only terminal-session events. -/
theorem executeCommand_events (env : Env) (c : String) (cwd : Option String)
    (s : ServiceState) :
    ∀ e ∈ (executeCommand env c cwd s).2.2, e.isTerminalEvt = true := by
  unfold executeCommand
  split
  · simp
  · dsimp only
    split
    · simp [Event.isTerminalEvt]
    · split
      · simp [Event.isTerminalEvt]
      · simp [Event.isTerminalEvt]

/-- `executeCommands` emits only terminal-session events. -/
theorem executeCommands_events (env : Env) :
    ∀ cmds s, ∀ e ∈ (executeCommands env cmds s).2.2, e.isTerminalEvt = true := by
  intro cmds
  induction cmds with
  | nil => intro s e he; simp [executeCommands] at he
  | cons c rest ih =>
    intro s e he
    simp only [executeCommands] at he
    split at he
    · rcases List.mem_append.mp he with h | h
      · exact executeCommand_events env c none s e h
      · exact ih _ e h
    · exact executeCommand_events env c none s e he

/-- `startProcess` emits only terminal-session events. -/
theorem startProcess_events (env : Env) (n c : String) (s : ServiceState) :
    ∀ e ∈ (startProcess env n c s).2.2, e.isTerminalEvt = true := by
  unfold startProcess
  split
  · simp
  · dsimp only
    split
    · simp [Event.isTerminalEvt]
    · simp [Event.isTerminalEvt]

/-- `stopProcess` emits only terminal-session events. -/
theorem stopProcess_events (env : Env) (n : String) (s : ServiceState) :
    ∀ e ∈ (stopProcess env n s).2.2, e.isTerminalEvt = true := by
  unfold stopProcess
  split
  · simp
  · simp [Event.isTerminalEvt]

/-- `runBuild` emits only terminal-session events. -/
theorem runBuild_events (env : Env) (c : Option String) (s : ServiceState) :
    ∀ e ∈ (runBuild env c s).2.2, e.isTerminalEvt = true := by
  unfold runBuild
  split
  · simp
  · intro e he
    exact executeCommand_events env _ none s e he

/-- `runTests` emits only terminal-session events. -/
theorem runTests_events (env : Env) (p : Option String) (s : ServiceState) :
    ∀ e ∈ (runTests env p s).2.2, e.isTerminalEvt = true := by
  unfold runTests
  intro e he
  exact executeCommand_events env _ none s e he

/-- `gitOpCore` emits only git-backend events. -/
theorem gitOpCore_events (env : Env) (o : String) (call : GitCall)
    (dataOf : String → Option String) (s : ServiceState) :
    ∀ e ∈ (gitOpCore env o call dataOf s).2.2, e.isGitEvt = true := by
  unfold gitOpCore
  split
  · simp
  · split
    · simp [Event.isGitEvt]
    · simp [Event.isGitEvt]

/-- `deployToVercel` emits only deploy-backend events. -/
theorem deployToVercel_events (env : Env) (pn : String)
    (files : List (String × String)) (s : ServiceState) :
    ∀ e ∈ (deployToVercel env pn files s).2.2, e.isDeployEvt = true := by
  unfold deployToVercel
  split
  · simp
  · dsimp only
    split
    · simp
    · split
      · simp [Event.isDeployEvt]
      · simp [Event.isDeployEvt]

/-- The folder phase emits only folder-creation events. -/
theorem runFolderPhase_events (env : Env) :
    ∀ ops s, ∀ e ∈ (runFolderPhase env ops s).2, e.isFolderEvt = true := by
  intro ops
  induction ops with
  | nil => intro s e he; simp [runFolderPhase] at he
  | cons op rest ih =>
    intro s e he
    by_cases h1 : op.type = "create"
    · simp only [runFolderPhase, h1, if_true] at he
      rcases List.mem_append.mp he with h | h
      · exact createFolder_events env op.path s e h
      · exact ih _ e h
    · simp only [runFolderPhase, h1, if_false] at he
      exact ih _ e he

/-- The file phase emits only file-bus events. -/
theorem runFilePhase_events (env : Env) :
    ∀ ops s, ∀ e ∈ (runFilePhase env ops s).2.2, e.isFileBusEvt = true := by
  intro ops
  induction ops with
  | nil => intro s e he; simp [runFilePhase] at he
  | cons op rest ih =>
    intro s e he
    by_cases h1 : op.type = "create"
    · simp only [runFilePhase, h1] at he
      simp at he
      rcases he with h | h
      · exact fileOpCore_events env _ _ _ s e h
      · exact ih _ e h
    · by_cases h2 : op.type = "edit"
      · simp only [runFilePhase, h1, h2] at he
        simp at he
        rcases he with h | h
        · exact fileOpCore_events env _ _ _ s e h
        · exact ih _ e h
      · by_cases h3 : op.type = "delete"
        · simp only [runFilePhase, h1, h2, h3] at he
          simp at he
          rcases he with h | h
          · exact fileOpCore_events env _ _ _ s e h
          · exact ih _ e h
        · by_cases h4 : op.type = "rename"
          · simp only [runFilePhase, h1, h2, h3, h4] at he
            simp at he
            rcases he with h | h
            · exact fileOpCore_events env _ _ _ s e h
            · exact ih _ e h
          · simp only [runFilePhase, h1, h2, h3, h4] at he
            simp at he
            exact ih _ e he

/-- The terminal phase emits only terminal-session events. -/
theorem runTerminalPhase_events (env : Env) :
    ∀ ops s, ∀ e ∈ (runTerminalPhase env ops s).2.2, e.isTerminalEvt = true := by
  intro ops
  induction ops with
  | nil => intro s e he; simp [runTerminalPhase] at he
  | cons cmd rest ih =>
    intro s e he
    by_cases h1 : cmd.type = "run"
    · cases hct : jsTruthyS cmd.command with
      | true =>
        simp only [runTerminalPhase, h1, hct, if_true] at he
        rcases List.mem_append.mp he with h | h
        · exact executeCommand_events env _ none s e h
        · exact ih _ e h
      | false =>
        simp only [runTerminalPhase, h1, hct] at he
        simp at he
        exact ih _ e he
    · by_cases h2 : cmd.type = "sequence"
      · cases hcm : cmd.commands with
        | some cs =>
          simp only [runTerminalPhase, h1, h2, hcm] at he
          rcases List.mem_append.mp he with h | h
          · exact executeCommands_events env cs s e h
          · exact ih _ e h
        | none =>
          simp only [runTerminalPhase, h1, h2, hcm] at he
          exact ih _ e he
      · by_cases h3 : cmd.type = "start"
        · cases hcn : jsTruthyS cmd.name && jsTruthyS cmd.command with
          | true =>
            simp only [runTerminalPhase, h1, h2, h3, hcn, if_true] at he
            rcases List.mem_append.mp he with h | h
            · exact startProcess_events env _ _ s e h
            · exact ih _ e h
          | false =>
            simp only [runTerminalPhase, h1, h2, h3, hcn] at he
            simp at he
            exact ih _ e he
        · by_cases h4 : cmd.type = "stop"
          · cases hcn : jsTruthyS cmd.name with
            | true =>
              simp only [runTerminalPhase, h1, h2, h3, h4, hcn, if_true] at he
              rcases List.mem_append.mp he with h | h
              · exact stopProcess_events env _ s e h
              · exact ih _ e h
            | false =>
              simp only [runTerminalPhase, h1, h2, h3, h4, hcn] at he
              simp at he
              exact ih _ e he
          · simp only [runTerminalPhase, h1, h2, h3, h4] at he
            simp at he
            exact ih _ e he

/-- The build phase emits only terminal-session events. -/
theorem runBuildPhase_events (env : Env) :
    ∀ ops s, ∀ e ∈ (runBuildPhase env ops s).2.2, e.isTerminalEvt = true := by
  intro ops
  induction ops with
  | nil => intro s e he; simp [runBuildPhase] at he
  | cons op rest ih =>
    intro s e he
    by_cases h1 : op.type = "build"
    · simp only [runBuildPhase, h1, if_true] at he
      rcases List.mem_append.mp he with h | h
      · exact runBuild_events env op.command s e h
      · exact ih _ e h
    · by_cases h2 : op.type = "test"
      · simp only [runBuildPhase, h1, h2] at he
        simp at he
        rcases he with h | h
        · exact runTests_events env op.pattern s e h
        · exact ih _ e h
      · by_cases h3 : op.type = "dev"
        · simp only [runBuildPhase, h1, h2, h3] at he
          simp at he
          rcases he with h | h
          · exact startProcess_events env _ _ s e h
          · exact ih _ e h
        · by_cases h4 : op.type = "run"
          · simp only [runBuildPhase, h1, h2, h3, h4] at he
            simp at he
            rcases he with h | h
            · exact startProcess_events env _ _ s e h
            · exact ih _ e h
          · simp only [runBuildPhase, h1, h2, h3, h4] at he
            simp at he
            exact ih _ e he

/-- The git phase emits only git-backend events. -/
theorem runGitPhase_events (env : Env) :
    ∀ ops s, ∀ e ∈ (runGitPhase env ops s).2.2, e.isGitEvt = true := by
  intro ops
  induction ops with
  | nil => intro s e he; simp [runGitPhase] at he
  | cons op rest ih =>
    intro s e he
    by_cases h1 : op.type = "init"
    · simp only [runGitPhase, h1] at he
      simp at he
      rcases he with h | h
      · exact gitOpCore_events env _ _ _ s e h
      · exact ih _ e h
    · 
      by_cases h2 : op.type = "status"
      · simp only [runGitPhase, h1, h2] at he
        simp at he
        rcases he with h | h
        · exact gitOpCore_events env _ _ _ s e h
        · exact ih _ e h
      · 
        by_cases h3 : op.type = "add"
        · simp only [runGitPhase, h1, h2, h3] at he
          simp at he
          rcases he with h | h
          · exact gitOpCore_events env _ _ _ s e h
          · exact ih _ e h
        · 
          by_cases h4 : op.type = "commit"
          · simp only [runGitPhase, h1, h2, h3, h4] at he
            simp at he
            rcases he with h | h
            · exact gitOpCore_events env _ _ _ s e h
            · exact ih _ e h
          · 
            by_cases h5 : op.type = "branch"
            · simp only [runGitPhase, h1, h2, h3, h4, h5] at he
              simp at he
              rcases he with h | h
              · exact gitOpCore_events env _ _ _ s e h
              · exact ih _ e h
            · 
              by_cases h6 : op.type = "checkout"
              · simp only [runGitPhase, h1, h2, h3, h4, h5, h6] at he
                simp at he
                rcases he with h | h
                · exact gitOpCore_events env _ _ _ s e h
                · exact ih _ e h
              · 
                by_cases h7 : op.type = "push"
                · simp only [runGitPhase, h1, h2, h3, h4, h5, h6, h7] at he
                  simp at he
                  rcases he with h | h
                  · exact gitOpCore_events env _ _ _ s e h
                  · exact ih _ e h
                · 
                  by_cases h8 : op.type = "pull"
                  · simp only [runGitPhase, h1, h2, h3, h4, h5, h6, h7, h8] at he
                    simp at he
                    rcases he with h | h
                    · exact gitOpCore_events env _ _ _ s e h
                    · exact ih _ e h
                  · 
                    by_cases h9 : op.type = "log"
                    · simp only [runGitPhase, h1, h2, h3, h4, h5, h6, h7, h8, h9] at he
                      simp at he
                      rcases he with h | h
                      · exact gitOpCore_events env _ _ _ s e h
                      · exact ih _ e h
                    · 
                      by_cases h10 : op.type = "diff"
                      · simp only [runGitPhase, h1, h2, h3, h4, h5, h6, h7, h8, h9, h10] at he
                        simp at he
                        rcases he with h | h
                        · exact gitOpCore_events env _ _ _ s e h
                        · exact ih _ e h
                      · 
                        simp only [runGitPhase, h1, h2, h3, h4, h5, h6, h7, h8, h9, h10] at he
                        simp at he
                        exact ih _ e he

/-- The deploy phase emits only deploy-backend events. -/
theorem runDeployPhase_events (env : Env) :
    ∀ ops s, ∀ e ∈ (runDeployPhase env ops s).2.2, e.isDeployEvt = true := by
  intro ops
  induction ops with
  | nil => intro s e he; simp [runDeployPhase] at he
  | cons op rest ih =>
    intro s e he
    by_cases h1 : op.platform = "vercel"
    · simp only [runDeployPhase, h1, if_true] at he
      rcases List.mem_append.mp he with h | h
      · exact deployToVercel_events env op.project [] s e h
      · exact ih _ e h
    · simp only [runDeployPhase, h1, if_false] at he
      exact ih _ e he

/-- C1 (counterexample): a batch with one build directive and one git
directive — `executeOperations` runs the *build* phase (its three terminal
events) before the git call, so git operations do not precede build/run
operations. -/
theorem executeOperations_build_before_git :
    (executeOperations testEnv batchBuildGit initialState).2.2 =
      [.createSession { cwd := none }, .execCommand "s1" "npm run build",
       .closeSession "s1", .git .status] := by
  decide

/-- C1 (amended): `executeOperations` executes the six phases in the fixed
cross-domain order folder → file → terminal → **build/run** → **git** →
deploy: the collaborator trace is the concatenation of the six phase traces,
and each phase emits only its own domain's collaborator events. -/
theorem executeOperations_phase_order (env : Env) (ops : OperationBatch)
    (s : ServiceState) :
    (executeOperations env ops s).2.2 =
      (runFolderPhase env ops.folderOperations s).2 ++
      (runFilePhase env ops.fileOperations
        (runFolderPhase env ops.folderOperations s).1).2.2 ++
      (runTerminalPhase env ops.terminalCommands
        (runFilePhase env ops.fileOperations
          (runFolderPhase env ops.folderOperations s).1).2.1).2.2 ++
      (runBuildPhase env ops.buildOperations
        (runTerminalPhase env ops.terminalCommands
          (runFilePhase env ops.fileOperations
            (runFolderPhase env ops.folderOperations s).1).2.1).2.1).2.2 ++
      (runGitPhase env ops.gitOperations
        (runBuildPhase env ops.buildOperations
          (runTerminalPhase env ops.terminalCommands
            (runFilePhase env ops.fileOperations
              (runFolderPhase env ops.folderOperations s).1).2.1).2.1).2.1).2.2 ++
      (runDeployPhase env ops.deployOperations
        (runGitPhase env ops.gitOperations
          (runBuildPhase env ops.buildOperations
            (runTerminalPhase env ops.terminalCommands
              (runFilePhase env ops.fileOperations
                (runFolderPhase env ops.folderOperations s).1).2.1).2.1).2.1).2.1).2.2 ∧
    (∀ l s', ∀ e ∈ (runFolderPhase env l s').2, e.isFolderEvt = true) ∧
    (∀ l s', ∀ e ∈ (runFilePhase env l s').2.2, e.isFileBusEvt = true) ∧
    (∀ l s', ∀ e ∈ (runTerminalPhase env l s').2.2, e.isTerminalEvt = true) ∧
    (∀ l s', ∀ e ∈ (runBuildPhase env l s').2.2, e.isTerminalEvt = true) ∧
    (∀ l s', ∀ e ∈ (runGitPhase env l s').2.2, e.isGitEvt = true) ∧
    (∀ l s', ∀ e ∈ (runDeployPhase env l s').2.2, e.isDeployEvt = true) :=
  ⟨rfl,
   fun l s' => runFolderPhase_events env l s',
   fun l s' => runFilePhase_events env l s',
   fun l s' => runTerminalPhase_events env l s',
   fun l s' => runBuildPhase_events env l s',
   fun l s' => runGitPhase_events env l s',
   fun l s' => runDeployPhase_events env l s'⟩

/-- C1 (amended, witness): the phase-order theorem instantiated on the
build-plus-git batch; its git-phase trace consists of git events. -/
theorem executeOperations_phase_order_witness :
    (Event.git GitCall.status) ∈
      (runGitPhase testEnv batchBuildGit.gitOperations initialState).2.2 ∧
    (Event.git GitCall.status).isGitEvt = true :=
  ⟨by decide,
   (executeOperations_phase_order testEnv batchBuildGit initialState).2.2.2.2.2.1
     batchBuildGit.gitOperations initialState (Event.git GitCall.status) (by decide)⟩

/-! ## C7 — results produced per directive -/

/-- The file phase yields exactly one result per handled file directive. -/
theorem runFilePhase_length (env : Env) :
    ∀ ops s, (runFilePhase env ops s).1.length =
      (ops.filter (fun op => isHandledFileType op.type)).length := by
  intro ops
  induction ops with
  | nil => intro s; simp [runFilePhase]
  | cons op rest ih =>
    intro s
    by_cases h1 : op.type = "create"
    · simp [runFilePhase, isHandledFileType, h1, ih]
    · by_cases h2 : op.type = "edit"
      · simp [runFilePhase, isHandledFileType, h1, h2, ih]
      · by_cases h3 : op.type = "delete"
        · simp [runFilePhase, isHandledFileType, h1, h2, h3, ih]
        · by_cases h4 : op.type = "rename"
          · simp [runFilePhase, isHandledFileType, h1, h2, h3, h4, ih]
          · simp [runFilePhase, isHandledFileType, h1, h2, h3, h4, ih]

/-- The build phase yields one result per `build`/`test` directive and none
for `dev`/`run`. -/
theorem runBuildPhase_length (env : Env) :
    ∀ ops s, (runBuildPhase env ops s).1.length =
      (ops.filter (fun op => pushesBuildResult op.type)).length := by
  intro ops
  induction ops with
  | nil => intro s; simp [runBuildPhase]
  | cons op rest ih =>
    intro s
    by_cases h1 : op.type = "build"
    · simp [runBuildPhase, pushesBuildResult, h1, ih]
    · by_cases h2 : op.type = "test"
      · simp [runBuildPhase, pushesBuildResult, h1, h2, ih]
      · by_cases h3 : op.type = "dev"
        · simp [runBuildPhase, pushesBuildResult, h1, h2, h3, ih]
        · by_cases h4 : op.type = "run"
          · simp [runBuildPhase, pushesBuildResult, h1, h2, h3, h4, ih]
          · simp [runBuildPhase, pushesBuildResult, h1, h2, h3, h4, ih]

/-- The deploy phase yields one result per `vercel` deploy directive and
none for any other platform. -/
theorem runDeployPhase_length (env : Env) :
    ∀ ops s, (runDeployPhase env ops s).1.length =
      (ops.filter (fun op => op.platform == "vercel")).length := by
  intro ops
  induction ops with
  | nil => intro s; simp [runDeployPhase]
  | cons op rest ih =>
    intro s
    by_cases h1 : op.platform = "vercel"
    · simp [runDeployPhase, h1, ih]
    · simp [runDeployPhase, h1, ih]

/-- The terminal phase yields no results for `start`/`stop` directives. -/
theorem runTerminalPhase_start_stop (env : Env) :
    ∀ ops s, (∀ c ∈ ops, c.type = "start" ∨ c.type = "stop") →
      (runTerminalPhase env ops s).1 = [] := by
  intro ops
  induction ops with
  | nil => intro s _; simp [runTerminalPhase]
  | cons cmd rest ih =>
    intro s hall
    have hcmd := hall cmd (by simp)
    have hrest : ∀ c ∈ rest, c.type = "start" ∨ c.type = "stop" :=
      fun c hc => hall c (by simp [hc])
    rcases hcmd with h | h
    · cases hcn : (jsTruthyS cmd.name && jsTruthyS cmd.command) with
      | true => simp [runTerminalPhase, h, hcn, ih _ hrest]
      | false => simp [runTerminalPhase, h, hcn, ih _ hrest]
    · cases hcn : jsTruthyS cmd.name with
      | true => simp [runTerminalPhase, h, hcn, ih _ hrest]
      | false => simp [runTerminalPhase, h, hcn, ih _ hrest]

/-- The git phase yields exactly one result per handled git directive. -/
theorem runGitPhase_length (env : Env) :
    ∀ ops s, (runGitPhase env ops s).1.length =
      (ops.filter (fun op => isHandledGitType op.type)).length := by
  intro ops
  induction ops with
  | nil => intro s; simp [runGitPhase]
  | cons op rest ih =>
    intro s
    by_cases h1 : op.type = "init"
    · simp [runGitPhase, isHandledGitType, h1, ih]
    · 
      by_cases h2 : op.type = "status"
      · simp [runGitPhase, isHandledGitType, h1, h2, ih]
      · 
        by_cases h3 : op.type = "add"
        · simp [runGitPhase, isHandledGitType, h1, h2, h3, ih]
        · 
          by_cases h4 : op.type = "commit"
          · simp [runGitPhase, isHandledGitType, h1, h2, h3, h4, ih]
          · 
            by_cases h5 : op.type = "branch"
            · simp [runGitPhase, isHandledGitType, h1, h2, h3, h4, h5, ih]
            · 
              by_cases h6 : op.type = "checkout"
              · simp [runGitPhase, isHandledGitType, h1, h2, h3, h4, h5, h6, ih]
              · 
                by_cases h7 : op.type = "push"
                · simp [runGitPhase, isHandledGitType, h1, h2, h3, h4, h5, h6, h7, ih]
                · 
                  by_cases h8 : op.type = "pull"
                  · simp [runGitPhase, isHandledGitType, h1, h2, h3, h4, h5, h6, h7, h8, ih]
                  · 
                    by_cases h9 : op.type = "log"
                    · simp [runGitPhase, isHandledGitType, h1, h2, h3, h4, h5, h6, h7, h8, h9, ih]
                    · 
                      by_cases h10 : op.type = "diff"
                      · simp [runGitPhase, isHandledGitType, h1, h2, h3, h4, h5, h6, h7, h8, h9, h10, ih]
                      · 
                        simp [runGitPhase, isHandledGitType, h1, h2, h3, h4, h5, h6, h7, h8, h9, h10, ih]

/-- C7 (counterexample): a batch consisting of one `dev` directive is
consumed — it dispatches collaborator calls — yet contributes *zero* results
to all five collections (the same holds for `run`, `terminal_start`,
`terminal_stop`, folder and non-vercel deploy directives). -/
theorem devDirective_yields_no_result :
    (executeOperations testEnv batchDev initialState).1 =
      { terminalResults := [], fileResults := [], buildResults := [],
        deployResults := [], gitResults := [] } ∧
    (executeOperations testEnv batchDev initialState).2.2 =
      [.createSession { name := some "AI: dev", cwd := none },
       .write "s1" "npm run dev\n"] := by
  decide

/-- C7 (amended): every *handled file* directive and every *handled git*
directive yields exactly one result; `build`/`test` directives yield one
`BuildResult` each while `dev`/`run` yield none; a deploy directive yields
one `DeployResult` exactly when its platform is `vercel`; and
`terminal_start`/`terminal_stop` directives yield no `TerminalCommandResult`. -/
theorem executeOperations_result_counts (env : Env) (ops : OperationBatch)
    (s : ServiceState) :
    (executeOperations env ops s).1.fileResults.length =
      (ops.fileOperations.filter (fun op => isHandledFileType op.type)).length ∧
    (executeOperations env ops s).1.gitResults.length =
      (ops.gitOperations.filter (fun op => isHandledGitType op.type)).length ∧
    (executeOperations env ops s).1.buildResults.length =
      (ops.buildOperations.filter (fun op => pushesBuildResult op.type)).length ∧
    (executeOperations env ops s).1.deployResults.length =
      (ops.deployOperations.filter (fun op => op.platform == "vercel")).length ∧
    ((∀ c ∈ ops.terminalCommands, c.type = "start" ∨ c.type = "stop") →
      (executeOperations env ops s).1.terminalResults = []) :=
  ⟨runFilePhase_length env ops.fileOperations _,
   runGitPhase_length env ops.gitOperations _,
   runBuildPhase_length env ops.buildOperations _,
   runDeployPhase_length env ops.deployOperations _,
   fun h => runTerminalPhase_start_stop env ops.terminalCommands _ h⟩

/-- C7 (amended, witness): the count theorem instantiated on the
start-directive batch, discharging the start/stop hypothesis. -/
theorem executeOperations_result_counts_witness :
    (∀ c ∈ batchStart.terminalCommands, c.type = "start" ∨ c.type = "stop") ∧
    (executeOperations testEnv batchStart initialState).1.terminalResults = [] :=
  ⟨by decide,
   (executeOperations_result_counts testEnv batchStart initialState).2.2.2.2
     (by decide)⟩

/-! ## C9 — the command history -/

/-- One `executeCommand` call appends at most one history entry (exactly one
on the non-throwing enabled path, none on the disabled and throw paths). -/
theorem executeCommand_history_append (env : Env) (command : String)
    (cwd : Option String) (s : ServiceState) :
    ∃ tail, (executeCommand env command cwd s).2.1.commandHistory =
      s.commandHistory ++ tail ∧ tail.length ≤ 1 := by
  unfold executeCommand
  split
  · exact ⟨[], by simp, by simp⟩
  · dsimp only
    split
    · exact ⟨[], by simp, by simp⟩
    · split
      · exact ⟨[], by simp, by simp⟩
      · exact ⟨_, rfl, by simp⟩

/-- C9 (counterexample): the entry pushed onto the command history is the
two-field object `{command, result}` — it carries no `timestamp` field. -/
theorem commandHistoryEntry_no_timestamp :
    "timestamp" ∉ commandHistoryEntryFields ∧
    commandHistoryEntryFields = ["command", "result"] := by
  decide

/-- C9 (amended): the history is append-only — each executed command appends
at most one `{command, result}` entry (exactly one when the collaborator
calls succeed, carrying that command and its result); sequence members
append individually; and `clearCommandHistory` is the only operation that
empties it. -/
theorem commandHistory_append_only (env : Env) (command : String)
    (cwd : Option String) (s : ServiceState) :
    (∃ tail, (executeCommand env command cwd s).2.1.commandHistory =
       s.commandHistory ++ tail ∧ tail.length ≤ 1) ∧
    (∀ cmds s', ∃ tail,
       (executeCommands env cmds s').2.1.commandHistory =
         s'.commandHistory ++ tail) ∧
    (∀ session r, s.config.terminalEnabled = true →
       env.createSession { cwd := jsOrS cwd s.config.projectPath } = .ok session →
       env.execCommand session.id command = .ok r →
       (executeCommand env command cwd s).2.1.commandHistory =
         s.commandHistory ++
           [{ command := command,
              result := { success := r.exitCode == 0, output := r.output,
                          exitCode := r.exitCode, duration := env.elapsed } }]) ∧
    (clearCommandHistory s).commandHistory = [] := by
  refine ⟨executeCommand_history_append env command cwd s, ?_, ?_, rfl⟩
  · intro cmds
    induction cmds with
    | nil => intro s'; exact ⟨[], by simp [executeCommands]⟩
    | cons c rest ih =>
      intro s'
      obtain ⟨t1, ht1, -⟩ := executeCommand_history_append env c none s'
      simp only [executeCommands]
      split
      · obtain ⟨t2, ht2⟩ := ih (executeCommand env c none s').2.1
        exact ⟨t1 ++ t2, by rw [ht2, ht1, List.append_assoc]⟩
      · exact ⟨t1, ht1⟩
  · intro session r hT hc he
    have hT' : s.config.terminalEnabled = false ↔ False := by simp [hT]
    simp only [executeCommand, hT', if_false, hc, he]

/-- C9 (amended, witness): one successful command on a fresh service appends
exactly its `{command, result}` entry. -/
theorem commandHistory_append_only_witness :
    initialState.config.terminalEnabled = true ∧
    (executeCommand testEnv "ls" none initialState).2.1.commandHistory =
      initialState.commandHistory ++
        [{ command := "ls",
           result := { success := (0 : Int) == 0, output := "out:ls",
                       exitCode := 0, duration := testEnv.elapsed } }] :=
  ⟨rfl,
   (commandHistory_append_only testEnv "ls" none initialState).2.2.1
     { id := "s1" } { output := "out:ls", exitCode := 0 } rfl rfl rfl⟩

/-! ## C8 — the response sanitizer -/

/-- A list already stripped of its leading spaces keeps them stripped after
the right-hand strip. -/
theorem dropWhile_rdropWhile_fixed (p : Char → Bool) (l : List Char)
    (h : List.dropWhile p l = l) :
    List.dropWhile p (List.rdropWhile p l) = List.rdropWhile p l := by
  rw [List.dropWhile_eq_self_iff] at h ⊢
  intro hl
  have hp := List.rdropWhile_prefix p l
  have h0 := hp.getElem hl
  rw [List.get_eq_getElem, h0]
  exact h (by have := hp.length_le; omega)

/-- JS `trim` is idempotent (char-list form). -/
theorem jsTrimData_idem (l : List Char) :
    jsTrimData (jsTrimData l) = jsTrimData l := by
  have hform : ∀ l : List Char,
      jsTrimData l = List.rdropWhile isJsSpace (List.dropWhile isJsSpace l) :=
    fun _ => rfl
  rw [hform (jsTrimData l), hform l,
    dropWhile_rdropWhile_fixed isJsSpace _
      (List.dropWhile_idempotent isJsSpace l),
    List.rdropWhile_idempotent]

/-- JS `trim` is idempotent. -/
theorem jsTrim_idem (t : String) : jsTrim (jsTrim t) = jsTrim t :=
  congrArg String.mk (jsTrimData_idem t.data)

/-- Re-trimming an already-trimmed string changes nothing. -/
theorem trim_mk_trimData (l : List Char) :
    jsTrim (String.mk (jsTrimData l)) = String.mk (jsTrimData l) :=
  congrArg String.mk (jsTrimData_idem l)

/-- `cleanResponse` output carries no leading or trailing whitespace: its
final `.trim()` is idempotent. -/
theorem cleanResponse_trimmed (t : String) :
    jsTrim (cleanResponse t) = cleanResponse t := by
  unfold cleanResponse
  dsimp only
  exact trim_mk_trimData _

/-- C8 (counterexample): `cleanResponse` is not idempotent and its output can
retain directive tag syntax that the extractor recognizes: on `x8` the
sanitizer leaves the `terminal_start` span in place (its body contains `<`),
`parseOperations` still extracts a start directive from the sanitized
output, and a second sanitizer pass changes the text again. -/
theorem cleanResponse_not_idempotent :
    cleanResponse x8 = x8Cleaned ∧
    (parseOperations (cleanResponse x8)).terminalCommands ≠ [] ∧
    cleanResponse (cleanResponse x8) ≠ cleanResponse x8 := by
  decide

/-- C8 (amended): `cleanResponse` deterministically replaces every span its
own sixteen patterns match with that pattern's fixed domain label and trims
the result (on `x8a` both spans become exactly their labels and no tag
syntax remains) — but spans recognized only by the extractor's more
permissive patterns survive (on `x8` the `terminal_start` tags remain), so
the output may contain directive tag syntax and re-sanitizing is not the
identity on it; the final trim is idempotent. -/
theorem cleanResponse_replaces_spans :
    cleanResponse x8a = jsTrim (termRunLabel ++ fileCreateLabel) ∧
    (cleanResponse x8a).data.all (· != '<') = true ∧
    cleanResponse x8 = x8Cleaned ∧
    (cleanResponse x8).data.any (· == '<') = true ∧
    (∀ t : String, jsTrim (cleanResponse t) = cleanResponse t) := by
  exact ⟨by decide, by decide, by decide, by decide,
    fun t => cleanResponse_trimmed t⟩

/-- C4 (amended, witness): the per-kind order theorem instantiated at `x4` —
the file-create scan positions are strictly increasing. -/
theorem parseOperations_kind_order_witness :
    List.Pairwise (fun p q => p.1 < q.1) (scanM mFileCreate x4.data) :=
  (parseOperations_kind_order x4).2.2.1

/-- C8 (amended, witness): the sanitizer theorem instantiated at `x8a` — its
output is trim-stable. -/
theorem cleanResponse_replaces_spans_witness :
    jsTrim (cleanResponse x8a) = cleanResponse x8a :=
  cleanResponse_replaces_spans.2.2.2.2 x8a
